import Mathlib

/-!
Verification development for the import-export application.

The definitions below are a shallow embedding of the TypeScript source:

* the in-memory import job manager (job ledger),
* the CSV header validators and the start phase of the import routes,
* the metaobject handle generator and field decoder,
* the retry helper of the collection model and the company creation retry loop,
* the company import orchestration (grouping, company-create-once, dependent
  location creation, skip-on-failure),
* the collections background task progress loop.

JavaScript strings are modelled as Lean strings, JavaScript numbers used as
counters as integers (the code only ever stores integral counts in them), and
remote calls as explicit environments supplying each call response.  Clock
values (Date.now, new Date) are passed in as a logical tick.
-/

namespace ImportExportGwl

/-! ### JavaScript helpers -/

/-- JS truthiness of an optional string: undefined and the empty string are falsy. -/
def truthy : Option String → Bool
  | none => false
  | some s => !(s = "")

/-- JS `a || b` for an optional string `a` with a string default `b`. -/
def jsOr (a : Option String) (b : String) : String :=
  match a with
  | none => b
  | some s => if s = "" then b else s

/-- JS `String.prototype.includes`: substring containment. -/
def jsIncludes (s sub : String) : Bool :=
  decide (sub.toList <:+: s.toList)

/-- JS `Array.prototype.includes` on a string array: element membership. -/
def jsFieldIncludes (l : List String) (x : String) : Bool :=
  l.contains x

/-! ### Job ledger (ImportJobManager) -/

/-- Job lifecycle status, from the ImportJob interface of the job manager module. -/
inductive JobStatus where
  | pending
  | processing
  | completed
  | failed
  | cancelled
deriving DecidableEq, Repr

/-- One entry of a job results array.  The orchestrators push objects carrying a
title, a status tag (success, warning or error) and a message. -/
structure ResultEntry where
  title : String
  tag : String
  message : String
deriving DecidableEq, Repr

/-- The Job record kept by ImportJobManager.  Timestamps are logical ticks. -/
structure ImportJob where
  id : String
  status : JobStatus
  entityType : String
  totalRecords : Int
  processedRecords : Int
  successCount : Int
  errorCount : Int
  companyCount : Option Int
  results : List ResultEntry
  createdAt : Nat
  updatedAt : Nat
deriving DecidableEq, Repr

/-- The private jobs map of ImportJobManager: an insertion-ordered association
list, as a JS Map. -/
abbrev JobLedger := List (String × ImportJob)

/-- ImportJobManager.getJob. -/
def getJob (m : JobLedger) (id : String) : Option ImportJob :=
  List.lookup id m

/-- JS `Map.set`: replace the value in place if the key exists, else append. -/
def setJob (m : JobLedger) (id : String) (j : ImportJob) : JobLedger :=
  if (List.lookup id m).isSome then
    m.map (fun p => if p.1 = id then (id, j) else p)
  else
    m ++ [(id, j)]

/-- ImportJobManager.createJob.  The randomly generated id is passed in. -/
def createJob (m : JobLedger) (id entityType : String) (totalRecords : Int)
    (now : Nat) : JobLedger :=
  setJob m id
    { id := id, status := .pending, entityType := entityType,
      totalRecords := totalRecords, processedRecords := 0, successCount := 0,
      errorCount := 0, companyCount := none, results := [],
      createdAt := now, updatedAt := now }

/-- The in-place mutation performed by updateProgress on a found job. -/
def updateProgressJob (job : ImportJob) (processed success error : Int)
    (newResults : List ResultEntry) (companyCount : Option Int) (now : Nat) :
    ImportJob :=
  let job := { job with processedRecords := processed, successCount := success,
                        errorCount := error }
  let job := match companyCount with
    | some c => { job with companyCount := some c }
    | none => job
  let job := if newResults.length > 0 then
      { job with results := job.results ++ newResults }
    else job
  let job := { job with updatedAt := now }
  let job := if job.status = .pending then { job with status := .processing } else job
  if processed ≥ job.totalRecords ∧ job.status ≠ .cancelled then
    { job with status := .completed }
  else job

/-- ImportJobManager.updateProgress: no-op when the job id is unknown. -/
def updateProgress (m : JobLedger) (id : String) (processed success error : Int)
    (newResults : List ResultEntry) (companyCount : Option Int) (now : Nat) :
    JobLedger :=
  match List.lookup id m with
  | none => m
  | some job =>
      setJob m id (updateProgressJob job processed success error newResults companyCount now)

/-- ImportJobManager.completeJob: force completed unless already cancelled. -/
def completeJob (m : JobLedger) (id : String) (now : Nat) : JobLedger :=
  match List.lookup id m with
  | none => m
  | some job =>
      if job.status ≠ .cancelled then
        setJob m id { job with status := .completed, updatedAt := now }
      else m

/-- ImportJobManager.failJob: set failed and append a system error entry. -/
def failJob (m : JobLedger) (id : String) (error : String) (now : Nat) : JobLedger :=
  match List.lookup id m with
  | none => m
  | some job =>
      setJob m id
        { job with status := .failed,
                   results := job.results ++
                     [{ title := "System Error", tag := "error", message := error }],
                   updatedAt := now }

/-- ImportJobManager.cancelJob: set cancelled unconditionally on a found job. -/
def cancelJob (m : JobLedger) (id : String) (now : Nat) : JobLedger :=
  match List.lookup id m with
  | none => m
  | some job =>
      setJob m id { job with status := .cancelled, updatedAt := now }

/-- ImportJobManager.isCancelled. -/
def isCancelled (m : JobLedger) (id : String) : Bool :=
  match List.lookup id m with
  | none => false
  | some job => job.status = .cancelled

/-- The status of the job registered under an id, if any. -/
def jobStatusAt (m : JobLedger) (id : String) : Option JobStatus :=
  (getJob m id).map ImportJob.status

/-- Ledger holding one job that has been marked failed. -/
def c1FailedLedger : JobLedger :=
  failJob (createJob [] "job1" "discounts" 1 0) "job1" "boom" 1

/-- Ledger holding one job that has been completed. -/
def c2CompletedLedger : JobLedger :=
  completeJob (createJob [] "job1" "collections" 1 0) "job1" 1

/-- The concrete completed job stored in the C1 witness ledger. -/
def c1WitnessJob : ImportJob :=
  { id := "job1", status := .completed, entityType := "collections",
    totalRecords := 1, processedRecords := 0, successCount := 0,
    errorCount := 0, companyCount := none, results := [],
    createdAt := 0, updatedAt := 1 }

/-- The concrete pending job stored in the C2 witness ledger. -/
def c2WitnessJob : ImportJob :=
  { id := "job2", status := .pending, entityType := "discounts",
    totalRecords := 3, processedRecords := 0, successCount := 0,
    errorCount := 0, companyCount := none, results := [],
    createdAt := 0, updatedAt := 0 }

/-! ### CSV header validation and the start phase of the import routes -/

/-- Result shape of the validateXxxHeaders helpers. -/
structure HeaderValidation where
  isValid : Bool
  errorMessage : Option String
  detectedType : Option String
deriving DecidableEq, Repr

/-- JS `toLowerCase` modelled per character (the data here is ASCII). -/
def jsToLower (s : String) : String :=
  String.mk (s.data.map Char.toLower)

/-- JS `String.prototype.trim`: strip leading and trailing whitespace. -/
def jsTrim (s : String) : String :=
  String.mk (((s.data.dropWhile Char.isWhitespace).reverse.dropWhile
    Char.isWhitespace).reverse)

/-- Header normalisation used by every validator: lower-case then trim. -/
def normalizeHeaders (headers : List String) : List String :=
  headers.map (fun h => jsTrim (jsToLower h))

/-- Number of the family's distinctive column names present in the
normalised header list. -/
def matchCount (family : List String) (normalized : List String) : Nat :=
  (family.filter (fun h => normalized.contains h)).length

/-- Distinctive collection columns checked by the companies import route. -/
def companyRouteCollectionHeaders : List String :=
  ["collection_type", "relation_type", "rule_set"]

/-- Distinctive discount columns checked by the companies import route. -/
def companyRouteDiscountHeaders : List String :=
  ["discount_type", "buy_quantity", "get_quantity", "get_discount", "usage_limit"]

/-- Distinctive metaobject columns checked by the companies import route. -/
def companyRouteMetaobjectHeaders : List String :=
  ["metaobject_type", "definition_type"]

/-- validateCompanyHeaders from the companies import route. -/
def validateCompanyHeaders (headers : List String) : HeaderValidation :=
  let normalizedHeaders := normalizeHeaders headers
  if matchCount companyRouteCollectionHeaders normalizedHeaders ≥ 2 then
    { isValid := false, detectedType := some "collection",
      errorMessage := some "This appears to be a collection file. Please use the Collections import page to import collection data." }
  else if matchCount companyRouteDiscountHeaders normalizedHeaders ≥ 3 then
    { isValid := false, detectedType := some "discount",
      errorMessage := some "This appears to be a discount file. Please use the Discounts import page to import discount data." }
  else if matchCount companyRouteMetaobjectHeaders normalizedHeaders ≥ 1 then
    { isValid := false, detectedType := some "metaobject",
      errorMessage := some "This appears to be a metaobject file. Please use the Metaobjects import page to import metaobject data." }
  else if ¬ normalizedHeaders.contains "company_id" ∧ ¬ normalizedHeaders.contains "name" then
    { isValid := false, detectedType := none,
      errorMessage := some "Invalid company file. The CSV must include either \"company_id\" or \"name\" column." }
  else
    { isValid := true, errorMessage := none, detectedType := none }

/-- Distinctive collection columns checked by the discounts import route. -/
def discountRouteCollectionHeaders : List String :=
  ["collection_type", "relation_type", "rule_set"]

/-- Distinctive company columns checked by the discounts import route. -/
def discountRouteCompanyHeaders : List String :=
  ["company_id", "location_id", "location_name", "shipping_street", "shipping_city"]

/-- Distinctive metaobject columns checked by the discounts import route. -/
def discountRouteMetaobjectHeaders : List String :=
  ["metaobject_type", "definition_type"]

/-- validateDiscountHeaders from the discounts import route. -/
def validateDiscountHeaders (headers : List String) : HeaderValidation :=
  let normalizedHeaders := normalizeHeaders headers
  if matchCount discountRouteCollectionHeaders normalizedHeaders ≥ 2 then
    { isValid := false, detectedType := some "collection",
      errorMessage := some "This appears to be a collection file. Please use the Collections import page to import collection data." }
  else if matchCount discountRouteCompanyHeaders normalizedHeaders ≥ 3 then
    { isValid := false, detectedType := some "company",
      errorMessage := some "This appears to be a company file. Please use the Companies import page to import company data." }
  else if matchCount discountRouteMetaobjectHeaders normalizedHeaders ≥ 1 then
    { isValid := false, detectedType := some "metaobject",
      errorMessage := some "This appears to be a metaobject file. Please use the Metaobjects import page to import metaobject data." }
  else if ¬ normalizedHeaders.contains "discount_type" ∧ ¬ normalizedHeaders.contains "title" then
    { isValid := false, detectedType := none,
      errorMessage := some "Invalid discount file. The CSV must include a \"title\" and \"discount_type\" column." }
  else
    { isValid := true, errorMessage := none, detectedType := none }

/-- A raw input row: its ordered field names with their string values. -/
abbrev RawRow := List (String × String)

/-- Outcome of the phase of a start action that runs before any background
work: rejection with a message, or creation of a job in the ledger. -/
inductive StartOutcome where
  | rejected (detectedType : Option String) (message : Option String)
  | jobCreated (entityType : String) (totalRecords : Int)
deriving DecidableEq, Repr

/-- The validation and job creation phase of the companies import action.
Header validation runs on the first record's keys, and an invalid file is
rejected before createJob and before any remote call. -/
def companiesStart (records : List RawRow) : StartOutcome :=
  match records with
  | [] => .jobCreated "companies" 0
  | r :: _ =>
      let v := validateCompanyHeaders (r.map Prod.fst)
      if v.isValid then .jobCreated "companies" (records.length : Int)
      else .rejected v.detectedType v.errorMessage

/-- The validation and job creation phase of the discounts import action.
An empty record list is rejected, then headers are validated before
createJob and before any remote call. -/
def discountsStart (records : List RawRow) : StartOutcome :=
  match records with
  | [] => .rejected none (some "CSV file is empty or has no valid data.")
  | r :: _ =>
      let v := validateDiscountHeaders (r.map Prod.fst)
      if v.isValid then .jobCreated "discounts" (records.length : Int)
      else .rejected v.detectedType (some (jsOr v.errorMessage "Invalid file type"))

/-- The C5 counterexample row: a valid company row that also carries two of
the discount family's distinctive columns. -/
def c5Row : RawRow :=
  [("company_id", "C1"), ("name", "Acme"), ("discount_type", "percentage"),
   ("buy_quantity", "2")]

/-- A row whose headers carry two distinctive collection columns. -/
def c5CollectionRow : RawRow :=
  [("title", "T"), ("collection_type", "smart"), ("relation_type", "equals")]

/-- A company-shaped row carrying three distinctive company columns. -/
def c5CompanyRow : RawRow :=
  [("company_id", "C1"), ("location_id", "L1"), ("location_name", "Main")]

/-! ### Metaobject handles (generateMetaobjectHandle) -/

/-- JS `substring(0, n)`. -/
def jsSubstringTo (s : String) (n : Nat) : String :=
  String.mk (s.data.take n)

/-- One cleaned handle part: lower-cased, with every character outside
`[a-z0-9]` replaced by a dash (regex replace with `[^a-z0-9]`). -/
def cleanHandlePart (s : String) : String :=
  String.mk ((jsToLower s).data.map
    (fun c => if c.isLower || c.isDigit then c else '-'))

/-- generateMetaobjectHandle from the metaobject utility module.  The first
source parameter is called prefix there. -/
def generateMetaobjectHandle (pfx id : String) (subId : Option String) : String :=
  let cleanPfx := cleanHandlePart pfx
  let cleanId := cleanHandlePart id
  let cleanSubId := match subId with
    | some s => if s = "" then "" else cleanHandlePart s
    | none => ""
  jsSubstringTo
    ((cleanPfx ++ "-" ++ cleanId) ++
      (if cleanSubId = "" then "" else "-" ++ cleanSubId)) 64

/-! ### Metaobject field decoding (parseMetaobjectFields) -/

/-- One field of a metaobject node as returned by the remote API: a key, a
raw string value and the declared type tag. -/
structure MetaField where
  key : String
  value : String
  type : String
deriving DecidableEq, Repr

/-- A metaobject node: id, handle and its typed fields. -/
structure MetaNode where
  id : String
  handle : String
  fields : List MetaField
deriving DecidableEq, Repr

/-- A JS number as produced by parseFloat: finite (modelled exactly as a
rational) or an infinity.  The NaN outcome is represented by the calling
context (an Option none). -/
inductive JsNumber where
  | finite (q : ℚ)
  | posInf
  | negInf
deriving DecidableEq, Repr

/-- Decimal digit value. -/
def digitVal (c : Char) : Option Nat :=
  if c.isDigit then some (c.toNat - 48) else none

/-- Hexadecimal digit value. -/
def hexVal (c : Char) : Option Nat :=
  if c.isDigit then some (c.toNat - 48)
  else if 'a' ≤ c ∧ c ≤ 'f' then some (c.toNat - 87)
  else if 'A' ≤ c ∧ c ≤ 'F' then some (c.toNat - 55)
  else none

/-- Accumulate the longest digit prefix; none when no digit was found. -/
def parseDigitsAux (base : Nat) (val : Char → Option Nat) (acc : Nat)
    (found : Bool) : List Char → Option Nat × List Char
  | [] => (if found then some acc else none, [])
  | c :: cs =>
      match val c with
      | some d => parseDigitsAux base val (acc * base + d) true cs
      | none => (if found then some acc else none, c :: cs)

/-- Longest digit prefix of a character list, with the rest. -/
def parseDigits (base : Nat) (val : Char → Option Nat) (cs : List Char) :
    Option Nat × List Char :=
  parseDigitsAux base val 0 false cs

/-- JS `parseInt` with no radix argument: skip whitespace, optional sign,
then a hexadecimal literal after `0x`/`0X` or a decimal digit prefix; NaN
(none) when no digit is found. -/
def jsParseInt (s : String) : Option Int :=
  let cs := s.data.dropWhile Char.isWhitespace
  let signed : Int × List Char :=
    match cs with
    | '-' :: t => (-1, t)
    | '+' :: t => (1, t)
    | _ => (1, cs)
  let body := signed.2
  let parsed : Option Nat :=
    match body with
    | '0' :: x :: t =>
        if x = 'x' ∨ x = 'X' then (parseDigits 16 hexVal t).1
        else (parseDigits 10 digitVal body).1
    | _ => (parseDigits 10 digitVal body).1
  parsed.map (fun n => signed.1 * (n : Int))

/-- Exponent part of a parseFloat literal: optional sign then digits; a
malformed exponent contributes nothing. -/
def jsReadExponent (t : List Char) : Int :=
  let sgn : Int × List Char :=
    match t with
    | '-' :: r => (-1, r)
    | '+' :: r => (1, r)
    | _ => (1, t)
  match (parseDigits 10 digitVal sgn.2).1 with
  | some n => sgn.1 * (n : Int)
  | none => 0

/-- JS `parseFloat`: skip whitespace, optional sign, then the longest prefix
of the form `Infinity`, `digits[.digits][exponent]` or `.digits[exponent]`;
NaN (none) when no digit is found. -/
def jsParseFloat (s : String) : Option JsNumber :=
  let cs := s.data.dropWhile Char.isWhitespace
  let sgnNeg : Bool × List Char :=
    match cs with
    | '-' :: t => (true, t)
    | '+' :: t => (false, t)
    | _ => (false, cs)
  let body := sgnNeg.2
  if "Infinity".data.isPrefixOf body then
    some (if sgnNeg.1 then .negInf else .posInf)
  else
    let ip := parseDigits 10 digitVal body
    let fracInfo : Option Nat × Nat × List Char :=
      match ip.2 with
      | '.' :: t =>
          let r := parseDigits 10 digitVal t
          (r.1, t.length - r.2.length, r.2)
      | _ => (none, 0, ip.2)
    let fracDigits := fracInfo.1
    let fracLen := fracInfo.2.1
    let rest := fracInfo.2.2
    match ip.1, fracDigits with
    | none, none => none
    | _, _ =>
        let mantissa : ℚ :=
          (ip.1.getD 0 : ℚ) + (fracDigits.getD 0 : ℚ) / (10 : ℚ) ^ fracLen
        let expo : Int :=
          match rest with
          | 'e' :: t => jsReadExponent t
          | 'E' :: t => jsReadExponent t
          | _ => 0
        some (.finite ((if sgnNeg.1 then -mantissa else mantissa) * (10 : ℚ) ^ expo))

/-- The decoded JS value of one metaobject field.  The json branch is kept
abstract in the parse result type `J` of the external `JSON.parse`. -/
inductive FieldVal (J : Type) where
  | str (s : String)
  | bool (b : Bool)
  | int (n : Int)
  | dec (x : JsNumber)
  | nan
  | json (j : J)
deriving DecidableEq, Repr

/-- The per-field branch of parseMetaobjectFields.  `jsonParse` models the
external `JSON.parse`, returning none when it throws; the surrounding
try/catch turns that throw into the raw string value.  `parseInt` and
`parseFloat` never throw: their failure is the NaN value. -/
def parseMetaobjectField {J : Type} (jsonParse : String → Option J)
    (f : MetaField) : FieldVal J :=
  if f.type = "json" ∨ f.type = "list.single_line_text_field" then
    match jsonParse f.value with
    | some j => .json j
    | none => .str f.value
  else if f.type = "boolean" then
    .bool (f.value = "true")
  else if f.type = "number_integer" then
    match jsParseInt f.value with
    | some n => .int n
    | none => .nan
  else if f.type = "number_decimal" then
    match jsParseFloat f.value with
    | some x => .dec x
    | none => .nan
  else
    .str f.value

/-- parseMetaobjectFields: decode every field of a node by its declared type
tag into the data object (id and handle are copied alongside in the source). -/
def parseMetaobjectFields {J : Type} (jsonParse : String → Option J)
    (node : MetaNode) : List (String × FieldVal J) :=
  node.fields.map (fun f => (f.key, parseMetaobjectField jsonParse f))

/-! ### The retry helper of the collection model (withRetry) -/

/-- Outcome of one call of the retried operation: a clean result, a result
whose checkErrors yields a message, or a thrown error. -/
inductive AttemptOutcome where
  | ok
  | userError (msg : String)
  | thrown (msg : String)
deriving DecidableEq, Repr

/-- The transient test of withRetry on an error message. -/
def isTransientMsg (m : String) : Bool :=
  jsIncludes m "rate limit" || jsIncludes m "Throttled"

/-- Observable behaviour of one withRetry invocation: how many times the
operation ran, the backoff sleeps in order, and the final error if any. -/
structure RetryRun where
  calls : Nat
  delays : List Nat
  result : Option String
deriving DecidableEq, Repr

/-- maxRetries from the import-export configuration module. -/
def importExportMaxRetries : Nat := 3

/-- The withRetry loop.  The operation outcome of the iteration entered with
retry counter `retries` is `attempt retries` (the counter increases by one on
every continuation).  A non-transient error message is thrown inside the try
block, so it lands in the same catch as a thrown operation error and is
retried while the counter is below maxRetries; a transient message
pre-increments the counter and retries while it stays below maxRetries. -/
def withRetryRun (attempt : Nat → AttemptOutcome) (maxRetries retries : Nat) :
    RetryRun :=
  match attempt retries with
  | .ok => { calls := 1, delays := [], result := none }
  | .userError msg =>
      if isTransientMsg msg then
        if h : maxRetries ≤ retries + 1 then
          { calls := 1, delays := [],
            result := some ("Failed after " ++ toString maxRetries ++ " retries: " ++ msg) }
        else
          let rest := withRetryRun attempt maxRetries (retries + 1)
          { calls := rest.calls + 1, delays := 2000 * (retries + 1) :: rest.delays,
            result := rest.result }
      else
        if h : maxRetries ≤ retries then
          { calls := 1, delays := [], result := some msg }
        else
          let rest := withRetryRun attempt maxRetries (retries + 1)
          { calls := rest.calls + 1, delays := 2000 * (retries + 1) :: rest.delays,
            result := rest.result }
  | .thrown msg =>
      if h : maxRetries ≤ retries then
        { calls := 1, delays := [], result := some msg }
      else
        let rest := withRetryRun attempt maxRetries (retries + 1)
        { calls := rest.calls + 1, delays := 2000 * (retries + 1) :: rest.delays,
          result := rest.result }
termination_by maxRetries - retries
decreasing_by
  all_goals omega

/-- withRetry with the retry counter starting at zero. -/
def withRetry (attempt : Nat → AttemptOutcome) (maxRetries : Nat) : RetryRun :=
  withRetryRun attempt maxRetries 0

/-- A constant non-transient (validation style) failure, as a remote system
returns for a field-level validation error. -/
def c4NonTransientAttempt : Nat → AttemptOutcome :=
  fun _ => AttemptOutcome.userError "Title cannot be blank"

/-- Whether a start outcome is a rejection. -/
def isRejected : StartOutcome → Bool
  | .rejected .. => true
  | .jobCreated .. => false

/-- A JSON.parse stand-in that throws on every input. -/
def jsonParseNone : String → Option Unit := fun _ => none

/-- The metaobject field used by the C9 counterexample: a declared integer
field whose raw value has no numeric prefix. -/
def c9IntField : MetaField :=
  { key := "usage_limit", value := "abc", type := "number_integer" }

/-! ### Company sync model (the company model module)

The company sync functions call the remote API through an environment that
supplies each response: the existence query, the companyCreate mutation (by
attempt index), the find-by-email recovery query, the metafieldsSet call,
the metaobject lookups and saves, and the per-company location queries.
Every remote call relevant to the claims is recorded in an event trace.
Address and contact-detail fields of a record flow only into remote payloads
that no claim observes and are not carried in the embedding. -/

/-- A company node returned by the remote companies queries. -/
structure RemoteCompany where
  id : String
  name : String
  externalId : Option String
deriving DecidableEq, Repr

/-- A company location node. -/
structure RemoteLocation where
  id : String
  name : String
  externalId : Option String
deriving DecidableEq, Repr

/-- One field-level user error of a remote mutation. -/
structure UserError where
  field : List String
  message : String
deriving DecidableEq, Repr

/-- Response payload of the companyCreate mutation. -/
structure CompanyCreateResponse where
  userErrors : List UserError
  company : Option RemoteCompany
deriving DecidableEq, Repr

/-- The fields of a company import record consumed by the sync logic. -/
structure CompanyData where
  name : String
  company_id : Option String
  contact_email : Option String
  contact_first_name : Option String
  contact_last_name : Option String
  location_id : Option String
  location_name : Option String
  metafields : Option String
deriving DecidableEq, Repr

/-- An existing company metaobject as consulted by the orchestration: only
its id and shopify_customer_id field matter there. -/
structure MetaRec where
  id : String
  shopify_customer_id : Option String
deriving DecidableEq, Repr

/-- A parsed metafield triple (the type tag is constant in the source). -/
structure MetafieldTriple where
  nspace : String
  key : String
  value : String
deriving DecidableEq, Repr

/-- Remote calls recorded by the company sync trace. -/
inductive SyncEvent where
  | companiesQuery (q : String)
  | companyCreate (externalId : Option String) (locationExternalId : Option String)
      (locationName : String)
  | findByEmail (email : String)
  | locationCreate (companyId : String) (locationExternalId : Option String)
      (locationName : String)
deriving DecidableEq, Repr

/-- Environment supplying every remote response consumed by the company
sync.  An Except.error models a thrown call. -/
structure CompanyEnv where
  companiesQuery : String → Except String (List RemoteCompany)
  companyCreate : Nat → Except String CompanyCreateResponse
  findByEmail : String → Except String (List RemoteCompany)
  metafieldsSet : List MetafieldTriple → Except String Unit
  ensureDefThrow : Option String
  metaobjectByHandle : String → Option MetaRec
  locationsOf : String → Except String (List RemoteLocation)
  locationCreate : Option String → Option RemoteLocation
  metaSaveThrow : String → Option String
  now : Nat

/-- Metafield parsing of createShopifyCompany: `ns.key:value|ns.key:value`,
value keeps any later colons, a missing namespace defaults to custom, and
incomplete entries are dropped. -/
def parseCompanyMetafields (mfs : Option String) : List MetafieldTriple :=
  match mfs with
  | none => []
  | some s =>
      if s = "" then []
      else
        (s.splitOn "|").filterMap (fun mf =>
          match mf.splitOn ":" with
          | [] => none
          | [_] => none
          | keyPart :: v1 :: vrest =>
              let value := String.intercalate ":" (v1 :: vrest)
              let kp := keyPart.splitOn "."
              let ns0 := kp.headD ""
              let key0 := (kp.drop 1).headD ""
              let nspace := if key0 = "" then "custom" else ns0
              let key := if key0 = "" then ns0 else key0
              if nspace ≠ "" ∧ key ≠ "" ∧ value ≠ "" then
                some { nspace := nspace, key := key, value := value }
              else none)

/-- The alphanumeric filter of the generated email base name. -/
def jsFilterAlnum (s : String) : String :=
  String.mk (s.data.filter (fun c => c.isAlpha || c.isDigit))

/-- Base name of the generated contact email: strip non-alphanumerics,
lower-case, first 15 characters. -/
def companyBaseName (name : String) : String :=
  jsSubstringTo (jsToLower (jsFilterAlnum name)) 15

/-- The generated contact email of an attempt: base name plus a suffix cut
from the current clock tick and retry counter. -/
def generatedEmail (name : String) (now retries : Nat) : String :=
  companyBaseName name ++ "_" ++
    String.mk ((toString now ++ toString retries).data.drop 8) ++
    "@company-local.com"

/-- Result of one iteration of the createShopifyCompany retry loop. -/
inductive AttemptRes where
  | done (company : Option RemoteCompany) (isNew : Bool)
  | failed (msg : String)
deriving DecidableEq, Repr

/-- One iteration of the createShopifyCompany loop: existence check by
external id (else by name), then the companyCreate mutation carrying the
record's location as companyLocation, with the email-conflict recovery on a
taken-email user error.  Any failure becomes an AttemptRes.failed, which the
loop retries. -/
def companyCreateAttempt (env : CompanyEnv) (cd : CompanyData) (retries : Nat) :
    AttemptRes × List SyncEvent :=
  let email := generatedEmail cd.name env.now retries
  let contactEmail := jsOr cd.contact_email email
  let metafieldsInput := parseCompanyMetafields cd.metafields
  let queryString :=
    if truthy cd.company_id then
      "external_id:\"" ++ cd.company_id.getD "" ++ "\""
    else
      "name:\"" ++ cd.name ++ "\""
  let checkEvents := [SyncEvent.companiesQuery queryString]
  let fromCheck : Option RemoteCompany :=
    match env.companiesQuery queryString with
    | .error _ => none
    | .ok nodes =>
        if nodes.length > 0 then
          let byExternal :=
            if truthy cd.company_id then
              nodes.find? (fun n => n.externalId == cd.company_id)
            else none
          match byExternal with
          | some m => some m
          | none => nodes.find? (fun n => n.name == cd.name)
        else none
  match fromCheck with
  | some m => (.done (some m) false, checkEvents)
  | none =>
      let events := checkEvents ++
        [SyncEvent.companyCreate cd.company_id cd.location_id (jsOr cd.location_name cd.name)]
      match env.companyCreate retries with
      | .error msg => (.failed msg, events)
      | .ok resp =>
          if resp.userErrors.length > 0 then
            match resp.userErrors.find? (fun e =>
                jsFieldIncludes e.field "email" && jsIncludes e.message "taken") with
            | some _ =>
                let events := events ++ [SyncEvent.findByEmail contactEmail]
                match env.findByEmail contactEmail with
                | .ok (found :: _) =>
                    let nameMatches := jsToLower found.name == jsToLower cd.name
                    let externalIdMatches :=
                      truthy cd.company_id && (found.externalId == cd.company_id)
                    if nameMatches || externalIdMatches then
                      (.done (some found) false, events)
                    else
                      (.failed ("Email " ++ contactEmail ++
                        " is already taken by another company: \"" ++ found.name ++
                        "\" (ID: " ++ found.id ++ ")"), events)
                | .ok [] =>
                    (.failed ("Email " ++ contactEmail ++
                      " is already taken by another company."), events)
                | .error m =>
                    if jsIncludes m "already taken" then (.failed m, events)
                    else
                      (.failed ("Email " ++ contactEmail ++
                        " is already taken by another company."), events)
            | none =>
                (.failed ("Shopify API error for " ++ cd.name ++ ": " ++
                  String.intercalate ", " (resp.userErrors.map UserError.message)),
                 events)
          else
            match resp.company, metafieldsInput with
            | some c, _ :: _ =>
                match env.metafieldsSet metafieldsInput with
                | .error m => (.failed m, events)
                | .ok _ => (.done (some c) true, events)
            | _, _ => (.done resp.company true, events)

/-- The createShopifyCompany retry loop: on an attempt failure, retry until
the attempt before last, then wrap the error.  Every attempt failure is
retried, whatever its class. -/
def createShopifyCompanyGo (env : CompanyEnv) (cd : CompanyData)
    (maxR retries : Nat) :
    Except String (Option RemoteCompany × Bool) × List SyncEvent :=
  let a := companyCreateAttempt env cd retries
  match a.1 with
  | .done c isNew => (.ok (c, isNew), a.2)
  | .failed msg =>
      if _h : maxR - 1 ≤ retries then
        (.error ("Failed to create Shopify customer for " ++ cd.name ++
          " after " ++ toString maxR ++ " attempts. Error: " ++ msg), a.2)
      else
        let rest := createShopifyCompanyGo env cd maxR (retries + 1)
        (rest.1, a.2 ++ rest.2)
termination_by maxR - retries
decreasing_by
  all_goals omega

/-- createShopifyCompany with the configured attempt cap. -/
def createShopifyCompany (env : CompanyEnv) (cd : CompanyData) :
    Except String (Option RemoteCompany × Bool) × List SyncEvent :=
  createShopifyCompanyGo env cd importExportMaxRetries 0

/-- createShopifyCompanyWithFallback: swallow the final error into a null. -/
def createShopifyCompanyWithFallback (env : CompanyEnv) (cd : CompanyData) :
    Option (Option RemoteCompany × Bool) × List SyncEvent :=
  match createShopifyCompany env cd with
  | (.ok r, evs) => (some r, evs)
  | (.error _, evs) => (none, evs)

/-- createShopifyCompanyLocation: reuse an existing location matching the
external id, else run the companyLocationCreate mutation (user errors and
throws both yield null). -/
def createShopifyCompanyLocation (env : CompanyEnv) (companyId : String)
    (loc : CompanyData) : Option RemoteLocation × List SyncEvent :=
  let fromCheck : Option RemoteLocation :=
    if truthy loc.location_id then
      match env.locationsOf companyId with
      | .ok nodes => nodes.find? (fun l => l.externalId == loc.location_id)
      | .error _ => none
    else none
  match fromCheck with
  | some l => (some l, [])
  | none =>
      (env.locationCreate loc.location_id,
       [SyncEvent.locationCreate companyId loc.location_id (jsOr loc.location_name loc.name)])

/-- One entry of the importCompanies result list. -/
structure CompanyImportResult where
  success : Bool
  action : String
  shopify_sync : Bool
  company_id : String
  location_id : Option String
  location_name : Option String
  shopify_id : Option String
  message : Option String
  error : Option String
deriving DecidableEq, Repr

/-- JS Map based grouping: append to the existing group, else add a new
group at the end. -/
def groupInsert (groups : List (String × List CompanyData)) (key : String)
    (c : CompanyData) : List (String × List CompanyData) :=
  if groups.any (fun g => g.1 = key) then
    groups.map (fun g => if g.1 = key then (g.1, g.2 ++ [c]) else g)
  else
    groups ++ [(key, [c])]

/-- Group the records by company_id, with a per-record fallback key for a
missing id (the source uses COMP_ plus the clock tick of that record). -/
def groupByCompanyId (companies : List CompanyData) (defaultKey : Nat → String) :
    List (String × List CompanyData) :=
  companies.enum.foldl
    (fun groups p =>
      groupInsert groups
        (if truthy p.2.company_id then p.2.company_id.getD "" else defaultKey p.1)
        p.2)
    []

/-- The skipped entry pushed for every record of a group whose company step
failed. -/
def skippedResult (companyId : String) (l : CompanyData) : CompanyImportResult :=
  { success := false, action := "skipped", shopify_sync := false,
    company_id := companyId, location_id := l.location_id,
    location_name := l.location_name, shopify_id := none,
    message := some "Skipped: Company could not be created/found in Shopify.",
    error := none }

/-- The company step of one group: reuse the mirrored metaobject's company
id when present, else create (or recover) the company through the retry
loop, using the first record of the group.  Returns the optional Shopify
company id, the success flag, the isNew flag and the emitted events. -/
def companyStep (env : CompanyEnv) (companyId : String)
    (mainCompany : CompanyData) :
    (Option String × Bool × Bool) × List SyncEvent :=
  let companyHandle := generateMetaobjectHandle "company" companyId none
  let existingCompany := env.metaobjectByHandle companyHandle
  let createStep : (Option String × Bool × Bool) × List SyncEvent :=
    match createShopifyCompanyWithFallback env mainCompany with
    | (some (some c, isNew), evs) =>
        if c.id = "" then ((none, false, false), evs)
        else ((some c.id, true, isNew), evs)
    | (some (none, _), evs) => ((none, false, false), evs)
    | (none, evs) => ((none, false, false), evs)
  match existingCompany with
  | some r =>
      if truthy r.shopify_customer_id then
        ((r.shopify_customer_id, true, false), [])
      else createStep
  | none => createStep

/-- Processing of one company group by importCompanies: the company step
runs once, then the dependent locations (all of them when the company was
reused, all but the first when it was just created) are created serially,
then each record is mirrored into the metaobject store; if the company step
failed, every record of the group is recorded as skipped and no location
work happens. -/
def processCompanyGroup (env : CompanyEnv) (companyId : String)
    (locations : List CompanyData) :
    List CompanyImportResult × List SyncEvent :=
  match env.ensureDefThrow with
  | some m =>
      ([{ success := false, action := "failed", shopify_sync := false,
          company_id := companyId, location_id := none, location_name := none,
          shopify_id := none, message := none, error := some m }], [])
  | none =>
      match locations with
      | [] => ([], [])
      | mainCompany :: _ =>
          let step := companyStep env companyId mainCompany
          let shopifyCompanyId := step.1.1
          let ok := step.1.2.1
          let isNewCompany := step.1.2.2
          let locEvents : List SyncEvent :=
            match shopifyCompanyId, ok with
            | some cid, true =>
                let startIndex := if isNewCompany then 1 else 0
                ((locations.drop startIndex).map
                  (fun l => (createShopifyCompanyLocation env cid l).2)).flatten
            | _, _ => []
          if shopifyCompanyId.isNone ∨ ok = false then
            (locations.map (skippedResult companyId), step.2 ++ locEvents)
          else
            (locations.map (fun l =>
              let locationHandle :=
                generateMetaobjectHandle "loc" companyId l.location_id
              match env.metaSaveThrow locationHandle with
              | some m =>
                  { success := false, action := "failed", shopify_sync := false,
                    company_id := companyId, location_id := l.location_id,
                    location_name := none, shopify_id := none, message := none,
                    error := some m }
              | none =>
                  match env.metaobjectByHandle locationHandle with
                  | some _ =>
                      { success := true, action := "updated", shopify_sync := true,
                        company_id := companyId, location_id := l.location_id,
                        location_name := l.location_name,
                        shopify_id := shopifyCompanyId,
                        message := some "Location updated & linked to Shopify company",
                        error := none }
                  | none =>
                      { success := true, action := "created", shopify_sync := true,
                        company_id := companyId, location_id := l.location_id,
                        location_name := l.location_name,
                        shopify_id := shopifyCompanyId,
                        message := some "Location created & linked to Shopify company",
                        error := none }),
             step.2 ++ locEvents)

/-- importCompanies: group the records, then process the groups in order,
concatenating results and events. -/
def importCompanies (env : CompanyEnv) (companies : List CompanyData)
    (defaultKey : Nat → String) :
    List CompanyImportResult × List SyncEvent :=
  (groupByCompanyId companies defaultKey).foldl
    (fun acc g =>
      let r := processCompanyGroup env g.1 g.2
      (acc.1 ++ r.1, acc.2 ++ r.2))
    ([], [])

/-- Whether an event is the companyCreate mutation. -/
def isCompanyCreateEvent : SyncEvent → Bool
  | .companyCreate .. => true
  | _ => false

/-- Whether an event is the companyLocationCreate mutation. -/
def isLocationCreateEvent : SyncEvent → Bool
  | .locationCreate .. => true
  | _ => false

/-- The created-and-linked entry pushed per record of a successful group. -/
def createdResult (companyId : String) (scid : Option String) (l : CompanyData) :
    CompanyImportResult :=
  { success := true, action := "created", shopify_sync := true,
    company_id := companyId, location_id := l.location_id,
    location_name := l.location_name, shopify_id := scid,
    message := some "Location created & linked to Shopify company",
    error := none }

/-- The company found by email in the C7 witness. -/
def c7Found : RemoteCompany :=
  { id := "gid-77", name := "Other Name", externalId := some "EXT1" }

/-- The taken-email user error of the C7 witness. -/
def c7Err : UserError :=
  { field := ["companyContact", "email"], message := "Email has already been taken" }

/-- The remote environment of the C7 witness: no existing company, a create
that fails with a taken-email error, and a find-by-email that returns a
company whose external id matches. -/
def c7Env : CompanyEnv :=
  { companiesQuery := fun _ => .ok []
    companyCreate := fun _ => .ok { userErrors := [c7Err], company := none }
    findByEmail := fun _ => .ok [c7Found]
    metafieldsSet := fun _ => .ok ()
    ensureDefThrow := none
    metaobjectByHandle := fun _ => none
    locationsOf := fun _ => .ok []
    locationCreate := fun _ => none
    metaSaveThrow := fun _ => none
    now := 1700000000000 }

/-- The record synced in the C7 witness. -/
def c7Record : CompanyData :=
  { name := "Acme GmbH", company_id := some "EXT1", contact_email := none,
    contact_first_name := none, contact_last_name := none,
    location_id := some "L1", location_name := some "HQ", metafields := none }

/-- The company created in the C6 witness success scenario. -/
def c6Company : RemoteCompany :=
  { id := "gid-600", name := "Globex", externalId := some "EXT9" }

/-- A successful remote environment for the C6 witness. -/
def c6Env : CompanyEnv :=
  { companiesQuery := fun _ => .ok []
    companyCreate := fun _ => .ok { userErrors := [], company := some c6Company }
    findByEmail := fun _ => .ok []
    metafieldsSet := fun _ => .ok ()
    ensureDefThrow := none
    metaobjectByHandle := fun _ => none
    locationsOf := fun _ => .ok []
    locationCreate := fun _ =>
      some { id := "loc-601", name := "Second", externalId := some "L2" }
    metaSaveThrow := fun _ => none
    now := 1700000000000 }

/-- The non-email validation error of the C6 witness failure scenario. -/
def c6FailErr : UserError :=
  { field := ["input"], message := "Country code invalid" }

/-- A failing remote environment for the C6 witness: companyCreate always
rejects with a non-email validation error. -/
def c6EnvFail : CompanyEnv :=
  { c6Env with
    companyCreate := fun _ => .ok { userErrors := [c6FailErr], company := none } }

/-- First record of the C6 witness group. -/
def c6Main : CompanyData :=
  { name := "Globex", company_id := some "EXT9", contact_email := none,
    contact_first_name := none, contact_last_name := none,
    location_id := some "L1", location_name := some "Main", metafields := none }

/-- Second record of the C6 witness group: same company external id,
different location id. -/
def c6Second : CompanyData :=
  { name := "Globex", company_id := some "EXT9", contact_email := none,
    contact_first_name := none, contact_last_name := none,
    location_id := some "L2", location_name := some "Second", metafields := none }

/-! ### The import orchestrators driving the ledger (collections loop and
companies action) -/

/-- The processedRecords counter a poller reads for a job id (0 when the job
is unknown). -/
def processedAt (m : JobLedger) (jid : String) : Int :=
  match getJob m jid with
  | some j => j.processedRecords
  | none => 0

/-- The collections background loop, sequentialised: per record, an optional
external cancel request lands first, then the cooperative isCancelled check
runs (breaking the loop), then the record is processed, the shared counters
are bumped and updateProgress is called with the cumulative values and the
last results entry; after the loop, completeJob runs unless cancelled.  Each
record carries its outcome (success?) and the entry the route would push;
successes beyond the first ten stored entries push nothing, and the source
re-sends the last stored entry in that case (slice of the last element).
The returned list holds the ledger state after every mutation. -/
def collectionsGo (jid : String) (cancelBefore : Nat → Bool) :
    List (Bool × ResultEntry) → Nat → Int → Int → Int → List ResultEntry →
    JobLedger → List JobLedger
  | [], i, _p, _s, _e, _results, m =>
      if isCancelled m jid then [] else [completeJob m jid i]
  | r :: rest, i, p, s, e, results, m =>
      let m1 := if cancelBefore i then cancelJob m jid i else m
      let pre : List JobLedger := if cancelBefore i then [m1] else []
      if isCancelled m1 jid then pre
      else
        let p2 := p + 1
        let s2 := if r.1 then s + 1 else s
        let e2 := if r.1 then e else e + 1
        let results2 :=
          if r.1 then (if results.length < 10 then results ++ [r.2] else results)
          else results ++ [r.2]
        let newResults := results2.drop (results2.length - 1)
        let m2 := updateProgress m1 jid p2 s2 e2 newResults none i
        pre ++ m2 :: collectionsGo jid cancelBefore rest (i + 1) p2 s2 e2 results2 m2

/-- A full collections import: createJob with totalRecords equal to the
record count, then the loop. -/
def collectionsRun (jid : String) (recs : List (Bool × ResultEntry))
    (cancelBefore : Nat → Bool) : List JobLedger :=
  let m0 := createJob [] jid "collections" recs.length 0
  m0 :: collectionsGo jid cancelBefore recs 0 0 0 0 [] m0

/-- Field lookup on a row after the key normalisation of the companies
action (lower-case and trim every key). -/
def rowGet (r : RawRow) (k : String) : Option String :=
  (r.map (fun p => (jsTrim (jsToLower p.1), p.2))).lookup k

/-- JS `a || b` on two optional strings. -/
def jsOrO (a b : Option String) : Option String :=
  if truthy a then a else b

/-- The per-row mapping of the companies action: require a truthy company id
(company_id or id) and name (name or company name), defaulting location id
and location name; rows missing either are errors and produce no record. -/
def rowToCompany (r : RawRow) (index : Nat) : Option CompanyData :=
  let companyId := jsOrO (rowGet r "company_id") (rowGet r "id")
  let name := jsOrO (rowGet r "name") (rowGet r "company name")
  if truthy companyId && truthy name then
    some
      { name := (name.getD ""),
        company_id := companyId,
        contact_email := jsOrO (rowGet r "contact_email") (rowGet r "email"),
        contact_first_name :=
          jsOrO (rowGet r "contact_first_name") (rowGet r "first_name"),
        contact_last_name :=
          jsOrO (rowGet r "contact_last_name") (rowGet r "last_name"),
        location_id := some (jsOr (rowGet r "location_id")
          (companyId.getD "" ++ "_LOC" ++ toString index)),
        location_name := some (jsOr
          (jsOrO (rowGet r "location_name") (rowGet r "location name"))
          "Main Location"),
        metafields := rowGet r "metafields" }
  else none

/-- The records the companies action hands to importCompanies. -/
def companiesRouteBuild (records : List RawRow) : List CompanyData :=
  (List.enum records).filterMap (fun p => rowToCompany p.2 p.1)

/-- The error entries pushed for rows missing required fields. -/
def companiesRowErrors (records : List RawRow) : List ResultEntry :=
  (List.enum records).filterMap (fun p =>
    if (rowToCompany p.2 p.1).isNone then
      some { title := "Row " ++ toString (p.1 + 1), tag := "error",
             message := jsTrim ("Missing required fields: " ++
               (if truthy (jsOrO (rowGet p.2 "company_id") (rowGet p.2 "id"))
                then "" else "company_id") ++ " " ++
               (if truthy (jsOrO (rowGet p.2 "name") (rowGet p.2 "company name"))
                then "" else "name")) }
    else none)

/-- The error entries pushed for failed import results. -/
def companiesImportErrorEntries (importResults : List CompanyImportResult) :
    List ResultEntry :=
  importResults.filterMap (fun r =>
    if r.success then none
    else some
      { title := r.company_id ++ " - " ++
          jsOr r.location_name (jsOr r.location_id "undefined"),
        tag := "error",
        message := jsOr r.message (jsOr r.error "Unknown error") })

/-- The background part of the companies import action: build the records,
run importCompanies, then a single updateProgress whose processed value is
the number of distinct company ids among the results (the group count), and
a final completeJob.  The returned list holds the ledger states. -/
def companiesImportRun (records : List RawRow) (env : CompanyEnv)
    (dk : Nat → String) (jid : String) : List JobLedger :=
  let companies := companiesRouteBuild records
  let importResults := (importCompanies env companies dk).1
  let companyCount : Int := ((importResults.map CompanyImportResult.company_id).dedup).length
  let successCount : Int := (importResults.filter CompanyImportResult.success).length
  let errorCount : Int := (importResults.filter (fun r => r.success == false)).length
  let results := companiesRowErrors records ++ companiesImportErrorEntries importResults
  let m0 := createJob [] jid "companies" records.length 0
  let m1 := updateProgress m0 jid companyCount successCount errorCount results
    (some companyCount) 1
  let m2 := completeJob m1 jid 2
  [m0, m1, m2]

theorem lookup_map_replace (t : JobLedger) (id : String) (j : ImportJob)
    (h : (List.lookup id t).isSome) :
    List.lookup id (t.map (fun p => if p.1 = id then (id, j) else p)) = some j := by
  induction t with
  | nil => simp at h
  | cons p t ih =>
      rw [List.map_cons]
      by_cases hp : p.1 = id
      · rw [if_pos hp]
        simp [List.lookup]
      · rw [if_neg hp]
        have hb : (id == p.1) = false := by
          simp only [beq_eq_false_iff_ne, ne_eq]
          exact fun e => hp e.symm
        simp only [List.lookup, hb]
        apply ih
        simpa [List.lookup, hb] using h

theorem lookup_append_single (t : JobLedger) (id : String) (j : ImportJob)
    (h : ¬ (List.lookup id t).isSome) :
    List.lookup id (t ++ [(id, j)]) = some j := by
  induction t with
  | nil => simp [List.lookup]
  | cons p t ih =>
      by_cases hp : id = p.1
      · exfalso
        apply h
        simp [List.lookup, hp]
      · have hb : (id == p.1) = false := by simp [beq_eq_false_iff_ne, hp]
        simp only [List.cons_append, List.lookup, hb]
        apply ih
        intro ht
        apply h
        simp only [List.lookup, hb]
        exact ht

theorem getJob_setJob_self (m : JobLedger) (id : String) (j : ImportJob) :
    getJob (setJob m id j) id = some j := by
  unfold getJob setJob
  by_cases h : (List.lookup id m).isSome
  · rw [if_pos h]
    exact lookup_map_replace m id j h
  · rw [if_neg h]
    exact lookup_append_single m id j h

theorem updateProgressJob_status_of_completed (j : ImportJob)
    (h : j.status = .completed) (p s e : Int) (rs : List ResultEntry)
    (cc : Option Int) (now : Nat) :
    (updateProgressJob j p s e rs cc now).status = .completed := by
  unfold updateProgressJob
  cases cc <;> simp only [h] <;> split <;> simp [h]

theorem updateProgressJob_status_of_cancelled (j : ImportJob)
    (h : j.status = .cancelled) (p s e : Int) (rs : List ResultEntry)
    (cc : Option Int) (now : Nat) :
    (updateProgressJob j p s e rs cc now).status = .cancelled := by
  unfold updateProgressJob
  cases cc <;> simp only [h] <;> split <;> simp [h]

theorem updateProgress_found (m : JobLedger) (id : String) (j : ImportJob)
    (hj : getJob m id = some j) (p s e : Int) (rs : List ResultEntry)
    (cc : Option Int) (now : Nat) :
    updateProgress m id p s e rs cc now =
      setJob m id (updateProgressJob j p s e rs cc now) := by
  unfold updateProgress
  rw [show List.lookup id m = some j from hj]

theorem completeJob_found_active (m : JobLedger) (id : String) (j : ImportJob)
    (hj : getJob m id = some j) (h : j.status ≠ .cancelled) (now : Nat) :
    completeJob m id now = setJob m id { j with status := .completed, updatedAt := now } := by
  unfold completeJob
  rw [show List.lookup id m = some j from hj]
  exact if_pos h

theorem completeJob_found_cancelled (m : JobLedger) (id : String) (j : ImportJob)
    (hj : getJob m id = some j) (h : j.status = .cancelled) (now : Nat) :
    completeJob m id now = m := by
  unfold completeJob
  rw [show List.lookup id m = some j from hj]
  exact if_neg (by simp [h])

theorem cancelJob_found (m : JobLedger) (id : String) (j : ImportJob)
    (hj : getJob m id = some j) (now : Nat) :
    cancelJob m id now = setJob m id { j with status := .cancelled, updatedAt := now } := by
  unfold cancelJob
  rw [show List.lookup id m = some j from hj]

/-- C1 (amended): once a job's status is completed or cancelled, no later
updateProgress or completeJob call changes its status.  (The failed status is
not sticky in the code: see the counterexample theorem.) -/
theorem C1_completed_cancelled_sticky (m : JobLedger) (id : String)
    (j : ImportJob) (hj : getJob m id = some j)
    (hs : j.status = .completed ∨ j.status = .cancelled)
    (p s e : Int) (rs : List ResultEntry) (cc : Option Int) (n1 n2 : Nat) :
    jobStatusAt (updateProgress m id p s e rs cc n1) id = some j.status
    ∧ jobStatusAt (completeJob m id n2) id = some j.status := by
  constructor
  · rw [jobStatusAt, updateProgress_found m id j hj, getJob_setJob_self]
    show some (updateProgressJob j p s e rs cc n1).status = some j.status
    rcases hs with h | h
    · rw [updateProgressJob_status_of_completed j h, h]
    · rw [updateProgressJob_status_of_cancelled j h, h]
  · rcases hs with h | h
    · rw [jobStatusAt, completeJob_found_active m id j hj (by simp [h]) n2,
        getJob_setJob_self]
      show some JobStatus.completed = some j.status
      rw [h]
    · rw [jobStatusAt, completeJob_found_cancelled m id j hj h n2, hj]
      show some j.status = some j.status
      rfl

/-- C1 counterexample: a failed job with processed at least totalRecords is
moved to completed by updateProgress, so the claimed stickiness of the failed
status is false on the code. -/
theorem C1_counterexample :
    jobStatusAt c1FailedLedger "job1" = some JobStatus.failed
    ∧ jobStatusAt (updateProgress c1FailedLedger "job1" 1 0 1 [] none 2) "job1"
        = some JobStatus.completed
    ∧ some JobStatus.completed ≠ some JobStatus.failed := by
  refine ⟨by decide, by decide, by decide⟩

/-- C2 counterexample: cancelJob on a job whose status is already completed is
not a no-op: it moves the status to cancelled (and touches updatedAt). -/
theorem C2_counterexample :
    jobStatusAt c2CompletedLedger "job1" = some JobStatus.completed
    ∧ jobStatusAt (cancelJob c2CompletedLedger "job1" 2) "job1"
        = some JobStatus.cancelled
    ∧ cancelJob c2CompletedLedger "job1" 2 ≠ c2CompletedLedger := by
  refine ⟨by decide, by decide, by decide⟩

/-- C2 (amended): cancelJob on any registered job unconditionally sets the
status to cancelled, even on a completed job; on a pending or processing job
this yields the terminal cancelled status, and no later updateProgress or
completeJob call moves the job back to completed. -/
theorem C2_cancel_terminal (m : JobLedger) (id : String) (j : ImportJob)
    (hj : getJob m id = some j) (now : Nat)
    (p s e : Int) (rs : List ResultEntry) (cc : Option Int) (n1 n2 : Nat) :
    jobStatusAt (cancelJob m id now) id = some JobStatus.cancelled
    ∧ jobStatusAt (updateProgress (cancelJob m id now) id p s e rs cc n1) id
        = some JobStatus.cancelled
    ∧ jobStatusAt (completeJob (cancelJob m id now) id n2) id
        = some JobStatus.cancelled := by
  have hget : getJob (cancelJob m id now) id = some { j with status := .cancelled, updatedAt := now } := by
    rw [cancelJob_found m id j hj now]
    exact getJob_setJob_self ..
  have h1 : jobStatusAt (cancelJob m id now) id = some JobStatus.cancelled := by
    rw [jobStatusAt, hget]
    rfl
  refine ⟨h1, ?_, ?_⟩
  · have := C1_completed_cancelled_sticky (cancelJob m id now) id _ hget
      (Or.inr rfl) p s e rs cc n1 n2
    exact this.1
  · have := C1_completed_cancelled_sticky (cancelJob m id now) id _ hget
      (Or.inr rfl) p s e rs cc n1 n2
    exact this.2

/-- C10: every manager operation on an unknown job id is a harmless no-op:
getJob reports not found, isCancelled is false, and none of the mutators
changes the ledger. -/
theorem C10_missing_job_noop (m : JobLedger) (id : String)
    (h : getJob m id = none) (p s e : Int) (rs : List ResultEntry)
    (cc : Option Int) (msg : String) (n1 n2 n3 n4 : Nat) :
    getJob m id = none
    ∧ isCancelled m id = false
    ∧ updateProgress m id p s e rs cc n1 = m
    ∧ completeJob m id n2 = m
    ∧ failJob m id msg n3 = m
    ∧ cancelJob m id n4 = m := by
  have hl : List.lookup id m = none := h
  refine ⟨h, ?_, ?_, ?_, ?_, ?_⟩
  · rw [isCancelled, hl]
  · rw [updateProgress, hl]
  · rw [completeJob, hl]
  · rw [failJob, hl]
  · rw [cancelJob, hl]

/-- Witness for C10 at a concrete ledger and an id it does not contain. -/
theorem C10_missing_job_noop_witness :
    getJob (createJob [] "a" "companies" 2 0) "b" = none
    ∧ (getJob (createJob [] "a" "companies" 2 0) "b" = none
       ∧ isCancelled (createJob [] "a" "companies" 2 0) "b" = false
       ∧ updateProgress (createJob [] "a" "companies" 2 0) "b" 1 1 0 [] none 1
           = createJob [] "a" "companies" 2 0
       ∧ completeJob (createJob [] "a" "companies" 2 0) "b" 1
           = createJob [] "a" "companies" 2 0
       ∧ failJob (createJob [] "a" "companies" 2 0) "b" "x" 1
           = createJob [] "a" "companies" 2 0
       ∧ cancelJob (createJob [] "a" "companies" 2 0) "b" 1
           = createJob [] "a" "companies" 2 0) :=
  ⟨by decide,
   C10_missing_job_noop (createJob [] "a" "companies" 2 0) "b" (by decide)
     1 1 0 [] none "x" 1 1 1 1⟩

/-- Witness for C1 (amended) at a concrete completed job. -/
theorem C1_completed_cancelled_sticky_witness :
    (getJob c2CompletedLedger "job1" = some c1WitnessJob
     ∧ (c1WitnessJob.status = JobStatus.completed ∨
        c1WitnessJob.status = JobStatus.cancelled))
    ∧ (jobStatusAt (updateProgress c2CompletedLedger "job1" 1 1 0 [] none 2) "job1"
         = some c1WitnessJob.status
       ∧ jobStatusAt (completeJob c2CompletedLedger "job1" 3) "job1"
         = some c1WitnessJob.status) :=
  ⟨⟨by decide, Or.inl rfl⟩,
   C1_completed_cancelled_sticky c2CompletedLedger "job1" c1WitnessJob (by decide)
     (Or.inl rfl) 1 1 0 [] none 2 3⟩

/-- Witness for C2 (amended) at a concrete pending job. -/
theorem C2_cancel_terminal_witness :
    (getJob (createJob [] "job2" "discounts" 3 0) "job2" = some c2WitnessJob)
    ∧ (jobStatusAt (cancelJob (createJob [] "job2" "discounts" 3 0) "job2" 1) "job2"
         = some JobStatus.cancelled
       ∧ jobStatusAt (updateProgress (cancelJob (createJob [] "job2" "discounts" 3 0) "job2" 1)
           "job2" 3 3 0 [] none 2) "job2" = some JobStatus.cancelled
       ∧ jobStatusAt (completeJob (cancelJob (createJob [] "job2" "discounts" 3 0) "job2" 1)
           "job2" 3) "job2" = some JobStatus.cancelled) :=
  ⟨by decide,
   C2_cancel_terminal (createJob [] "job2" "discounts" 3 0) "job2" c2WitnessJob
     (by decide) 1 3 3 0 [] none 2 3⟩

/-! ### Theorems for header validation (C5) -/

theorem validateCompanyHeaders_collection (hs : List String)
    (h1 : matchCount companyRouteCollectionHeaders (normalizeHeaders hs) ≥ 2) :
    validateCompanyHeaders hs =
      { isValid := false, detectedType := some "collection",
        errorMessage := some "This appears to be a collection file. Please use the Collections import page to import collection data." } := by
  unfold validateCompanyHeaders
  rw [if_pos h1]

theorem validateCompanyHeaders_discount (hs : List String)
    (h1 : matchCount companyRouteCollectionHeaders (normalizeHeaders hs) < 2)
    (h2 : matchCount companyRouteDiscountHeaders (normalizeHeaders hs) ≥ 3) :
    validateCompanyHeaders hs =
      { isValid := false, detectedType := some "discount",
        errorMessage := some "This appears to be a discount file. Please use the Discounts import page to import discount data." } := by
  unfold validateCompanyHeaders
  rw [if_neg (by omega), if_pos h2]

theorem validateCompanyHeaders_metaobject (hs : List String)
    (h1 : matchCount companyRouteCollectionHeaders (normalizeHeaders hs) < 2)
    (h2 : matchCount companyRouteDiscountHeaders (normalizeHeaders hs) < 3)
    (h3 : matchCount companyRouteMetaobjectHeaders (normalizeHeaders hs) ≥ 1) :
    validateCompanyHeaders hs =
      { isValid := false, detectedType := some "metaobject",
        errorMessage := some "This appears to be a metaobject file. Please use the Metaobjects import page to import metaobject data." } := by
  unfold validateCompanyHeaders
  rw [if_neg (by omega), if_neg (by omega), if_pos h3]

theorem validateDiscountHeaders_collection (hs : List String)
    (h1 : matchCount discountRouteCollectionHeaders (normalizeHeaders hs) ≥ 2) :
    validateDiscountHeaders hs =
      { isValid := false, detectedType := some "collection",
        errorMessage := some "This appears to be a collection file. Please use the Collections import page to import collection data." } := by
  unfold validateDiscountHeaders
  rw [if_pos h1]

theorem validateDiscountHeaders_company (hs : List String)
    (h1 : matchCount discountRouteCollectionHeaders (normalizeHeaders hs) < 2)
    (h2 : matchCount discountRouteCompanyHeaders (normalizeHeaders hs) ≥ 3) :
    validateDiscountHeaders hs =
      { isValid := false, detectedType := some "company",
        errorMessage := some "This appears to be a company file. Please use the Companies import page to import company data." } := by
  unfold validateDiscountHeaders
  rw [if_neg (by omega), if_pos h2]

theorem validateDiscountHeaders_metaobject (hs : List String)
    (h1 : matchCount discountRouteCollectionHeaders (normalizeHeaders hs) < 2)
    (h2 : matchCount discountRouteCompanyHeaders (normalizeHeaders hs) < 3)
    (h3 : matchCount discountRouteMetaobjectHeaders (normalizeHeaders hs) ≥ 1) :
    validateDiscountHeaders hs =
      { isValid := false, detectedType := some "metaobject",
        errorMessage := some "This appears to be a metaobject file. Please use the Metaobjects import page to import metaobject data." } := by
  unfold validateDiscountHeaders
  rw [if_neg (by omega), if_neg (by omega), if_pos h3]

/-- C5 counterexample: a record set whose headers include two of the discount
family's distinctive columns (discount_type and buy_quantity) is not rejected
by the companies start action: validation passes and a job is created, because
the discount detection threshold on that page is three matches, not two. -/
theorem C5_counterexample :
    matchCount companyRouteDiscountHeaders (normalizeHeaders (c5Row.map Prod.fst)) = 2
    ∧ companiesStart [c5Row] = .jobCreated "companies" 1
    ∧ isRejected (companiesStart [c5Row]) = false := by
  refine ⟨by decide, by decide, by decide⟩

/-- C5 (amended): the start actions reject a file matching a different entity
family before creating a job, with a message naming the detected family, but
the detection thresholds are family specific, not a uniform two matches: two
distinctive collection columns, three distinctive discount columns (companies
page), three distinctive company columns (discounts page), and a single
metaobject column, checked in that order. -/
theorem C5_foreign_family_detection (r : RawRow) (rest : List RawRow) :
    (matchCount companyRouteCollectionHeaders (normalizeHeaders (r.map Prod.fst)) ≥ 2 →
      companiesStart (r :: rest) = .rejected (some "collection")
        (some "This appears to be a collection file. Please use the Collections import page to import collection data."))
    ∧ (matchCount companyRouteCollectionHeaders (normalizeHeaders (r.map Prod.fst)) < 2 →
       matchCount companyRouteDiscountHeaders (normalizeHeaders (r.map Prod.fst)) ≥ 3 →
      companiesStart (r :: rest) = .rejected (some "discount")
        (some "This appears to be a discount file. Please use the Discounts import page to import discount data."))
    ∧ (matchCount companyRouteCollectionHeaders (normalizeHeaders (r.map Prod.fst)) < 2 →
       matchCount companyRouteDiscountHeaders (normalizeHeaders (r.map Prod.fst)) < 3 →
       matchCount companyRouteMetaobjectHeaders (normalizeHeaders (r.map Prod.fst)) ≥ 1 →
      companiesStart (r :: rest) = .rejected (some "metaobject")
        (some "This appears to be a metaobject file. Please use the Metaobjects import page to import metaobject data."))
    ∧ (matchCount discountRouteCollectionHeaders (normalizeHeaders (r.map Prod.fst)) ≥ 2 →
      discountsStart (r :: rest) = .rejected (some "collection")
        (some "This appears to be a collection file. Please use the Collections import page to import collection data."))
    ∧ (matchCount discountRouteCollectionHeaders (normalizeHeaders (r.map Prod.fst)) < 2 →
       matchCount discountRouteCompanyHeaders (normalizeHeaders (r.map Prod.fst)) ≥ 3 →
      discountsStart (r :: rest) = .rejected (some "company")
        (some "This appears to be a company file. Please use the Companies import page to import company data."))
    ∧ (matchCount discountRouteCollectionHeaders (normalizeHeaders (r.map Prod.fst)) < 2 →
       matchCount discountRouteCompanyHeaders (normalizeHeaders (r.map Prod.fst)) < 3 →
       matchCount discountRouteMetaobjectHeaders (normalizeHeaders (r.map Prod.fst)) ≥ 1 →
      discountsStart (r :: rest) = .rejected (some "metaobject")
        (some "This appears to be a metaobject file. Please use the Metaobjects import page to import metaobject data.")) := by
  refine ⟨?_, ?_, ?_, ?_, ?_, ?_⟩
  · intro h1
    simp [companiesStart, validateCompanyHeaders_collection _ h1]
  · intro h1 h2
    simp [companiesStart, validateCompanyHeaders_discount _ h1 h2]
  · intro h1 h2 h3
    simp [companiesStart, validateCompanyHeaders_metaobject _ h1 h2 h3]
  · intro h1
    simp [discountsStart, validateDiscountHeaders_collection _ h1, jsOr]
  · intro h1 h2
    simp [discountsStart, validateDiscountHeaders_company _ h1 h2, jsOr]
  · intro h1 h2 h3
    simp [discountsStart, validateDiscountHeaders_metaobject _ h1 h2 h3, jsOr]

/-- Witness for C5 (amended): a collection-shaped file is rejected by the
companies page, and a company-shaped file is rejected by the discounts page. -/
theorem C5_foreign_family_detection_witness :
    (matchCount companyRouteCollectionHeaders (normalizeHeaders (c5CollectionRow.map Prod.fst)) ≥ 2
     ∧ companiesStart [c5CollectionRow] = .rejected (some "collection")
        (some "This appears to be a collection file. Please use the Collections import page to import collection data."))
    ∧ (matchCount discountRouteCollectionHeaders (normalizeHeaders (c5CompanyRow.map Prod.fst)) < 2
       ∧ matchCount discountRouteCompanyHeaders (normalizeHeaders (c5CompanyRow.map Prod.fst)) ≥ 3
       ∧ discountsStart [c5CompanyRow] = .rejected (some "company")
        (some "This appears to be a company file. Please use the Companies import page to import company data.")) :=
  ⟨⟨by decide, (C5_foreign_family_detection c5CollectionRow []).1 (by decide)⟩,
   ⟨by decide, by decide,
    (C5_foreign_family_detection c5CompanyRow []).2.2.2.2.1 (by decide) (by decide)⟩⟩

/-! ### Theorems for the metaobject handle (C8) -/

theorem mem_cleanHandlePart {c : Char} {s : String}
    (h : c ∈ (cleanHandlePart s).data) :
    c = '-' ∨ c.isLower = true ∨ c.isDigit = true := by
  simp only [cleanHandlePart, jsToLower, List.mem_map] at h
  obtain ⟨a, _, ha⟩ := h
  by_cases hk : a.isLower || a.isDigit
  · rw [if_pos hk] at ha
    rcases Bool.or_eq_true _ _ |>.mp hk with hl | hd
    · exact Or.inr (Or.inl (ha ▸ hl))
    · exact Or.inr (Or.inr (ha ▸ hd))
  · rw [if_neg hk] at ha
    exact Or.inl ha.symm

theorem cleanHandlePart_length (s : String) :
    (cleanHandlePart s).data.length = s.data.length := by
  simp [cleanHandlePart, jsToLower]

theorem cleanHandlePart_eq_empty_iff (s : String) :
    cleanHandlePart s = "" ↔ s = "" := by
  constructor
  · intro h
    apply String.ext
    have hl := cleanHandlePart_length s
    rw [h] at hl
    have h0 : s.data.length = 0 := by
      rw [← hl]
      rfl
    exact List.length_eq_zero.mp h0
  · intro h
    subst h
    rfl

/-- The handle as one concatenation: the sub id part is present exactly when
a non-empty sub id was supplied. -/
theorem generateMetaobjectHandle_eq (pfx id : String) (subId : Option String) :
    generateMetaobjectHandle pfx id subId =
      jsSubstringTo ((cleanHandlePart pfx ++ "-" ++ cleanHandlePart id) ++
        (match subId with
         | some s => if s = "" then "" else "-" ++ cleanHandlePart s
         | none => "")) 64 := by
  unfold generateMetaobjectHandle
  cases subId with
  | none =>
      dsimp only
      rw [if_pos rfl]
  | some s =>
      dsimp only
      by_cases hs : s = ""
      · rw [if_pos hs, if_pos rfl, if_pos hs]
      · rw [if_neg hs, if_neg ((not_congr (cleanHandlePart_eq_empty_iff s)).mpr hs),
          if_neg hs]

/-- C8: generateMetaobjectHandle is a pure function of its prefix, id and
optional sub id: it lower-cases the parts, replaces every character outside
`[a-z0-9]` by a dash, joins them as `prefix-id[-subId]` and truncates the
result to at most 64 characters; the output alphabet is `[a-z0-9-]`. -/
theorem C8_handle_shape (pfx id : String) (subId : Option String) :
    (generateMetaobjectHandle pfx id subId).data.length ≤ 64
    ∧ (∀ c ∈ (generateMetaobjectHandle pfx id subId).data,
        c = '-' ∨ c.isLower = true ∨ c.isDigit = true)
    ∧ generateMetaobjectHandle pfx id none =
        jsSubstringTo (cleanHandlePart pfx ++ "-" ++ cleanHandlePart id) 64
    ∧ (∀ s, subId = some s → s ≠ "" →
        generateMetaobjectHandle pfx id subId =
          jsSubstringTo ((cleanHandlePart pfx ++ "-" ++ cleanHandlePart id) ++
            ("-" ++ cleanHandlePart s)) 64) := by
  refine ⟨?_, ?_, ?_, ?_⟩
  · rw [generateMetaobjectHandle_eq]
    exact List.length_take_le _ _
  · intro c hc
    rw [generateMetaobjectHandle_eq] at hc
    have hc2 := List.take_subset _ _ hc
    simp only [String.data_append] at hc2
    rcases List.mem_append.mp hc2 with h | h
    · rcases List.mem_append.mp h with h | h
      · rcases List.mem_append.mp h with h | h
        · exact mem_cleanHandlePart h
        · left
          simpa using h
      · exact mem_cleanHandlePart h
    · cases subId with
      | none => simp at h
      | some s =>
          dsimp only at h
          by_cases hs : s = ""
          · rw [if_pos hs] at h
            simp at h
          · rw [if_neg hs, String.data_append] at h
            rcases List.mem_append.mp h with h | h
            · left
              simpa using h
            · exact mem_cleanHandlePart h
  · rw [generateMetaobjectHandle_eq, String.append_empty]
  · intro s hs hne
    subst hs
    rw [generateMetaobjectHandle_eq]
    dsimp only
    rw [if_neg hne]

/-- Witness for C8 at concrete inputs. -/
theorem C8_handle_shape_witness :
    ((generateMetaobjectHandle "company" "ACME_01" none).data.length ≤ 64
     ∧ (∀ c ∈ (generateMetaobjectHandle "company" "ACME_01" none).data,
         c = '-' ∨ c.isLower = true ∨ c.isDigit = true)
     ∧ generateMetaobjectHandle "company" "ACME_01" none =
         jsSubstringTo (cleanHandlePart "company" ++ "-" ++ cleanHandlePart "ACME_01") 64
     ∧ (∀ s, (none : Option String) = some s → s ≠ "" →
         generateMetaobjectHandle "company" "ACME_01" none =
           jsSubstringTo ((cleanHandlePart "company" ++ "-" ++ cleanHandlePart "ACME_01") ++
             ("-" ++ cleanHandlePart s)) 64))
    ∧ generateMetaobjectHandle "company" "ACME_01" none = "company-acme-01"
    ∧ generateMetaobjectHandle "loc" "ACME_01" (some "L 1") = "loc-acme-01-l-1" :=
  ⟨C8_handle_shape "company" "ACME_01" none, by decide, by decide⟩

/-! ### Theorems for progress monotonicity (C3) -/

theorem updateProgressJob_processedRecords (j : ImportJob) (p s e : Int)
    (rs : List ResultEntry) (cc : Option Int) (now : Nat) :
    (updateProgressJob j p s e rs cc now).processedRecords = p := by
  unfold updateProgressJob
  cases cc <;> dsimp only <;> split <;> split <;> split <;> rfl

theorem updateProgressJob_totalRecords (j : ImportJob) (p s e : Int)
    (rs : List ResultEntry) (cc : Option Int) (now : Nat) :
    (updateProgressJob j p s e rs cc now).totalRecords = j.totalRecords := by
  unfold updateProgressJob
  cases cc <;> dsimp only <;> split <;> split <;> split <;> rfl

theorem updateProgressJob_status_ne_cancelled (j : ImportJob) (p s e : Int)
    (rs : List ResultEntry) (cc : Option Int) (now : Nat)
    (h : j.status ≠ .cancelled) :
    (updateProgressJob j p s e rs cc now).status ≠ .cancelled := by
  unfold updateProgressJob
  cases cc <;> dsimp only <;> split <;> split <;> split <;> simp_all

theorem status_ne_of_not_cancelled (m : JobLedger) (jid : String)
    (j : ImportJob) (hj : getJob m jid = some j)
    (h : isCancelled m jid = false) : j.status ≠ .cancelled := by
  unfold isCancelled at h
  rw [show List.lookup jid m = some j from hj] at h
  simpa using h

theorem getJob_updateProgress_self (m : JobLedger) (jid : String)
    (j : ImportJob) (hj : getJob m jid = some j) (p s e : Int)
    (rs : List ResultEntry) (cc : Option Int) (now : Nat) :
    getJob (updateProgress m jid p s e rs cc now) jid =
      some (updateProgressJob j p s e rs cc now) := by
  rw [updateProgress_found m jid j hj]
  exact getJob_setJob_self ..

theorem getJob_cancelJob_self (m : JobLedger) (jid : String)
    (j : ImportJob) (hj : getJob m jid = some j) (now : Nat) :
    getJob (cancelJob m jid now) jid =
      some { j with status := .cancelled, updatedAt := now } := by
  rw [cancelJob_found m jid j hj]
  exact getJob_setJob_self ..

theorem getJob_completeJob_self (m : JobLedger) (jid : String)
    (j : ImportJob) (hj : getJob m jid = some j)
    (h : j.status ≠ .cancelled) (now : Nat) :
    getJob (completeJob m jid now) jid =
      some { j with status := .completed, updatedAt := now } := by
  rw [completeJob_found_active m jid j hj h]
  exact getJob_setJob_self ..

theorem processedAt_of_getJob (m : JobLedger) (jid : String) (j : ImportJob)
    (hj : getJob m jid = some j) : processedAt m jid = j.processedRecords := by
  unfold processedAt
  rw [hj]

theorem collectionsGo_spec (jid : String) (cancelBefore : Nat → Bool) (N : Int) :
    ∀ (recs : List (Bool × ResultEntry)) (i : Nat) (p s e : Int)
      (results : List ResultEntry) (m : JobLedger) (j : ImportJob),
      getJob m jid = some j → j.processedRecords = p → j.totalRecords = N →
      p + recs.length ≤ N →
      (∀ m2 ∈ collectionsGo jid cancelBefore recs i p s e results m,
         ∃ j2, getJob m2 jid = some j2 ∧ p ≤ j2.processedRecords ∧
           j2.processedRecords ≤ N ∧ j2.totalRecords = N)
      ∧ List.Chain' (fun a b => processedAt a jid ≤ processedAt b jid)
          (m :: collectionsGo jid cancelBefore recs i p s e results m) := by
  intro recs
  induction recs with
  | nil =>
      intro i p s e results m j hj hp hN hb
      by_cases hc : isCancelled m jid = true
      · constructor
        · intro m2 hm2
          simp [collectionsGo, hc] at hm2
        · simp [collectionsGo, hc]
      · have hcf : isCancelled m jid = false := by simpa using hc
        have hne := status_ne_of_not_cancelled m jid j hj hcf
        have hdone := getJob_completeJob_self m jid j hj hne i
        constructor
        · intro m2 hm2
          simp only [collectionsGo, hcf, Bool.false_eq_true, if_false,
            List.mem_singleton] at hm2
          subst hm2
          refine ⟨_, hdone, ?_, ?_, ?_⟩
          · simp [hp]
          · simp at hb
            simp [hp]
            omega
          · simp [hN]
        · simp only [collectionsGo, hcf, Bool.false_eq_true, if_false]
          rw [List.chain'_pair, processedAt_of_getJob m jid j hj,
            processedAt_of_getJob _ jid _ hdone]
  | cons r rest ih =>
      intro i p s e results m j hj hp hN hb
      by_cases hcb : cancelBefore i = true
      · -- an external cancel request lands before this iteration
        have hj1 := getJob_cancelJob_self m jid j hj i
        have hcan : isCancelled (cancelJob m jid i) jid = true := by
          unfold isCancelled
          rw [show List.lookup jid (cancelJob m jid i) = _ from hj1]
          simp
        constructor
        · intro m2 hm2
          simp only [collectionsGo, hcb, if_true, hcan, List.mem_singleton] at hm2
          subst hm2
          refine ⟨_, hj1, ?_, ?_, ?_⟩
          · simp [hp]
          · simp at hb
            simp [hp]
            omega
          · simp [hN]
        · simp only [collectionsGo, hcb, if_true, hcan]
          rw [List.chain'_pair, processedAt_of_getJob m jid j hj,
            processedAt_of_getJob _ jid _ hj1]
      · -- no cancel request: m1 = m
        by_cases hcan : isCancelled m jid = true
        · constructor
          · intro m2 hm2
            simp [collectionsGo, hcb, hcan] at hm2
          · simp [collectionsGo, hcb, hcan]
        · have hcf : isCancelled m jid = false := by simpa using hcan
          have hm2 := getJob_updateProgress_self m jid j hj (p + 1)
            (if r.1 then s + 1 else s) (if r.1 then e else e + 1)
            ((if r.1 then (if results.length < 10 then results ++ [r.2] else results)
              else results ++ [r.2]).drop
              ((if r.1 then (if results.length < 10 then results ++ [r.2] else results)
                else results ++ [r.2]).length - 1)) none i
          have hp2 : (updateProgressJob j (p + 1)
              (if r.1 then s + 1 else s) (if r.1 then e else e + 1)
              ((if r.1 then (if results.length < 10 then results ++ [r.2] else results)
                else results ++ [r.2]).drop
                ((if r.1 then (if results.length < 10 then results ++ [r.2] else results)
                  else results ++ [r.2]).length - 1)) none i).processedRecords = p + 1 :=
            updateProgressJob_processedRecords ..
          have hN2 : (updateProgressJob j (p + 1)
              (if r.1 then s + 1 else s) (if r.1 then e else e + 1)
              ((if r.1 then (if results.length < 10 then results ++ [r.2] else results)
                else results ++ [r.2]).drop
                ((if r.1 then (if results.length < 10 then results ++ [r.2] else results)
                  else results ++ [r.2]).length - 1)) none i).totalRecords = N := by
            rw [updateProgressJob_totalRecords, hN]
          have hbrest : p + 1 + rest.length ≤ N := by
            simp at hb
            omega
          have ihspec := ih (i + 1) (p + 1)
            (if r.1 then s + 1 else s) (if r.1 then e else e + 1)
            (if r.1 then (if results.length < 10 then results ++ [r.2] else results)
             else results ++ [r.2])
            (updateProgress m jid (p + 1)
              (if r.1 then s + 1 else s) (if r.1 then e else e + 1)
              ((if r.1 then (if results.length < 10 then results ++ [r.2] else results)
                else results ++ [r.2]).drop
                ((if r.1 then (if results.length < 10 then results ++ [r.2] else results)
                  else results ++ [r.2]).length - 1)) none i)
            _ hm2 hp2 hN2 hbrest
          constructor
          · intro m2 hmem
            simp only [collectionsGo, hcb, Bool.false_eq_true, if_false, hcf,
              List.nil_append, List.mem_cons] at hmem
            rcases hmem with hmem | hmem
            · subst hmem
              refine ⟨_, hm2, ?_, ?_, ?_⟩
              · rw [hp2]
                omega
              · rw [hp2]
                simp at hb
                omega
              · exact hN2
            · obtain ⟨j2, h1, h2, h3, h4⟩ := ihspec.1 m2 hmem
              exact ⟨j2, h1, by omega, h3, h4⟩
          · simp only [collectionsGo, hcb, Bool.false_eq_true, if_false, hcf,
              List.nil_append]
            rw [List.chain'_cons]
            constructor
            · rw [processedAt_of_getJob m jid j hj,
                processedAt_of_getJob _ jid _ hm2, hp, hp2]
              omega
            · exact ihspec.2

theorem getJob_createJob_nil (jid et : String) (tot : Int) (now : Nat) :
    getJob (createJob [] jid et tot now) jid =
      some { id := jid, status := .pending, entityType := et, totalRecords := tot,
             processedRecords := 0, successCount := 0, errorCount := 0,
             companyCount := none, results := [], createdAt := now,
             updatedAt := now } := by
  unfold createJob setJob getJob
  simp [List.lookup]

theorem collectionsRun_spec (jid : String) (recs : List (Bool × ResultEntry))
    (cancelBefore : Nat → Bool) :
    List.Chain' (fun a b => processedAt a jid ≤ processedAt b jid)
      (collectionsRun jid recs cancelBefore)
    ∧ ∀ m ∈ collectionsRun jid recs cancelBefore,
        0 ≤ processedAt m jid ∧ processedAt m jid ≤ (recs.length : Int) := by
  have hfresh := getJob_createJob_nil jid "collections" (recs.length : Int) 0
  have hspec := collectionsGo_spec jid cancelBefore (recs.length : Int) recs 0 0 0 0
    [] (createJob [] jid "collections" (recs.length : Int) 0) _ hfresh rfl rfl
    (by simp)
  constructor
  · exact hspec.2
  · intro m hm
    rcases List.mem_cons.mp hm with hm | hm
    · subst hm
      rw [processedAt_of_getJob _ jid _ hfresh]
      simp
    · obtain ⟨j2, h1, h2, h3, _⟩ := hspec.1 m hm
      rw [processedAt_of_getJob _ jid _ h1]
      exact ⟨by omega, h3⟩

theorem processCompanyGroup_company_id (env : CompanyEnv) (k : String)
    (locs : List CompanyData) :
    ∀ res ∈ (processCompanyGroup env k locs).1, res.company_id = k := by
  intro res hres
  unfold processCompanyGroup at hres
  split at hres
  · simp at hres
    rw [hres]
  · split at hres
    · simp at hres
    · try dsimp only at hres
      split at hres
      · rw [List.mem_map] at hres
        obtain ⟨l, _, rfl⟩ := hres
        rfl
      · rw [List.mem_map] at hres
        obtain ⟨l, _, rfl⟩ := hres
        try dsimp only
        split
        · rfl
        · split <;> rfl

theorem importCompanies_foldl_fst (env : CompanyEnv) :
    ∀ (gs : List (String × List CompanyData))
      (acc : List CompanyImportResult × List SyncEvent),
      (gs.foldl (fun acc g =>
        let r := processCompanyGroup env g.1 g.2
        (acc.1 ++ r.1, acc.2 ++ r.2)) acc).1
      = acc.1 ++ gs.flatMap (fun g => (processCompanyGroup env g.1 g.2).1) := by
  intro gs
  induction gs with
  | nil =>
      intro acc
      simp
  | cons g t ihg =>
      intro acc
      simp only [List.foldl_cons, List.flatMap_cons]
      rw [ihg]
      simp

theorem importCompanies_results_mem (env : CompanyEnv) (cs : List CompanyData)
    (dk : Nat → String) :
    ∀ res ∈ (importCompanies env cs dk).1,
      res.company_id ∈ (groupByCompanyId cs dk).map Prod.fst := by
  intro res hres
  unfold importCompanies at hres
  rw [importCompanies_foldl_fst] at hres
  simp only [List.nil_append] at hres
  rw [List.mem_flatMap] at hres
  obtain ⟨g, hg, hres⟩ := hres
  rw [processCompanyGroup_company_id env g.1 g.2 res hres]
  exact List.mem_map_of_mem _ hg

theorem groupInsert_length (gs : List (String × List CompanyData)) (k : String)
    (c : CompanyData) : (groupInsert gs k c).length ≤ gs.length + 1 := by
  unfold groupInsert
  split
  · simp
  · simp

theorem groupFold_length (dk : Nat → String) :
    ∀ (pairs : List (Nat × CompanyData))
      (acc : List (String × List CompanyData)),
      (pairs.foldl (fun groups p =>
        groupInsert groups
          (if truthy p.2.company_id then p.2.company_id.getD "" else dk p.1)
          p.2) acc).length
        ≤ acc.length + pairs.length := by
  intro pairs
  induction pairs with
  | nil =>
      intro acc
      simp
  | cons p t ihp =>
      intro acc
      simp only [List.foldl_cons, List.length_cons]
      calc (t.foldl _ (groupInsert acc
            (if truthy p.2.company_id then p.2.company_id.getD "" else dk p.1)
            p.2)).length
          ≤ (groupInsert acc
              (if truthy p.2.company_id then p.2.company_id.getD "" else dk p.1)
              p.2).length + t.length := ihp _
        _ ≤ acc.length + 1 + t.length := by
            have := groupInsert_length acc
              (if truthy p.2.company_id then p.2.company_id.getD "" else dk p.1) p.2
            omega
        _ = acc.length + (t.length + 1) := by omega

theorem groupByCompanyId_length (cs : List CompanyData) (dk : Nat → String) :
    (groupByCompanyId cs dk).length ≤ cs.length := by
  unfold groupByCompanyId
  have := groupFold_length dk (List.enum cs) []
  simpa using this

theorem companyCount_le (env : CompanyEnv) (cs : List CompanyData)
    (dk : Nat → String) :
    (((importCompanies env cs dk).1.map CompanyImportResult.company_id).dedup).length
      ≤ cs.length := by
  have hsub : ((importCompanies env cs dk).1.map CompanyImportResult.company_id) ⊆
      (groupByCompanyId cs dk).map Prod.fst := by
    intro x hx
    rw [List.mem_map] at hx
    obtain ⟨res, hres, rfl⟩ := hx
    exact importCompanies_results_mem env cs dk res hres
  have h1 := List.card_toFinset
    ((importCompanies env cs dk).1.map CompanyImportResult.company_id)
  have h2 : ((importCompanies env cs dk).1.map CompanyImportResult.company_id).toFinset ⊆
      ((groupByCompanyId cs dk).map Prod.fst).toFinset := by
    intro x hx
    rw [List.mem_toFinset] at hx ⊢
    exact hsub hx
  have h3 := Finset.card_le_card h2
  have h4 := List.toFinset_card_le ((groupByCompanyId cs dk).map Prod.fst)
  have h5 : ((groupByCompanyId cs dk).map Prod.fst).length ≤ cs.length := by
    have := groupByCompanyId_length cs dk
    simpa using this
  omega

theorem companiesRouteBuild_length (records : List RawRow) :
    (companiesRouteBuild records).length ≤ records.length := by
  unfold companiesRouteBuild
  have h := List.length_filterMap_le (fun p => rowToCompany p.2 p.1)
    (List.enum records)
  simpa using h

theorem companiesThreeStates_spec (jid : String) (total cc succ errv : Int)
    (results : List ResultEntry) (hcc0 : 0 ≤ cc) (hccN : cc ≤ total) :
    List.Chain' (fun a b => processedAt a jid ≤ processedAt b jid)
      [createJob [] jid "companies" total 0,
       updateProgress (createJob [] jid "companies" total 0) jid cc succ errv
         results (some cc) 1,
       completeJob (updateProgress (createJob [] jid "companies" total 0) jid cc
         succ errv results (some cc) 1) jid 2]
    ∧ ∀ m ∈ [createJob [] jid "companies" total 0,
       updateProgress (createJob [] jid "companies" total 0) jid cc succ errv
         results (some cc) 1,
       completeJob (updateProgress (createJob [] jid "companies" total 0) jid cc
         succ errv results (some cc) 1) jid 2],
        0 ≤ processedAt m jid ∧ processedAt m jid ≤ total := by
  have h0 := getJob_createJob_nil jid "companies" total 0
  have h1 := getJob_updateProgress_self _ jid _ h0 cc succ errv results (some cc) 1
  have hp1 := updateProgressJob_processedRecords
    { id := jid, status := .pending, entityType := "companies",
      totalRecords := total, processedRecords := 0, successCount := 0,
      errorCount := 0, companyCount := none, results := [], createdAt := 0,
      updatedAt := 0 } cc succ errv results (some cc) 1
  have hnc := updateProgressJob_status_ne_cancelled
    { id := jid, status := .pending, entityType := "companies",
      totalRecords := total, processedRecords := 0, successCount := 0,
      errorCount := 0, companyCount := none, results := [], createdAt := 0,
      updatedAt := 0 } cc succ errv results (some cc) 1 (by simp)
  have h2 := getJob_completeJob_self _ jid _ h1 hnc 2
  have e0 : processedAt (createJob [] jid "companies" total 0) jid = 0 := by
    rw [processedAt_of_getJob _ jid _ h0]
  have e1 : processedAt (updateProgress (createJob [] jid "companies" total 0)
      jid cc succ errv results (some cc) 1) jid = cc := by
    rw [processedAt_of_getJob _ jid _ h1, hp1]
  have e2 : processedAt (completeJob (updateProgress
      (createJob [] jid "companies" total 0) jid cc succ errv results
      (some cc) 1) jid 2) jid = cc := by
    rw [processedAt_of_getJob _ jid _ h2]
    show (updateProgressJob
      { id := jid, status := .pending, entityType := "companies",
        totalRecords := total, processedRecords := 0, successCount := 0,
        errorCount := 0, companyCount := none, results := [], createdAt := 0,
        updatedAt := 0 } cc succ errv results (some cc) 1).processedRecords = cc
    exact hp1
  constructor
  · rw [List.chain'_cons, List.chain'_pair, e0, e1, e2]
    exact ⟨hcc0, le_refl cc⟩
  · intro m hm
    rcases List.mem_cons.mp hm with hm | hm
    · subst hm
      rw [e0]
      exact ⟨le_refl 0, le_trans hcc0 hccN⟩
    rcases List.mem_cons.mp hm with hm | hm
    · subst hm
      rw [e1]
      exact ⟨hcc0, hccN⟩
    rcases List.mem_cons.mp hm with hm | hm
    · subst hm
      rw [e2]
      exact ⟨hcc0, hccN⟩
    · simp at hm

/-- C3: along every run of the two import orchestrators the ledger's
processedRecords counter is non-decreasing over successive reads and never
exceeds totalRecords.  For the collections loop this holds for every outcome
sequence and every cancellation schedule; for the companies action the single
progress update carries the distinct-company count, which is at most the
record count. -/
theorem C3_processed_monotone_bounded :
    (∀ (jid : String) (recs : List (Bool × ResultEntry))
       (cancelBefore : Nat → Bool),
      List.Chain' (fun a b => processedAt a jid ≤ processedAt b jid)
        (collectionsRun jid recs cancelBefore)
      ∧ ∀ m ∈ collectionsRun jid recs cancelBefore,
          0 ≤ processedAt m jid ∧ processedAt m jid ≤ (recs.length : Int))
    ∧ (∀ (records : List RawRow) (env : CompanyEnv) (dk : Nat → String)
         (jid : String),
      List.Chain' (fun a b => processedAt a jid ≤ processedAt b jid)
        (companiesImportRun records env dk jid)
      ∧ ∀ m ∈ companiesImportRun records env dk jid,
          0 ≤ processedAt m jid ∧ processedAt m jid ≤ (records.length : Int)) := by
  constructor
  · intro jid recs cancelBefore
    exact collectionsRun_spec jid recs cancelBefore
  · intro records env dk jid
    have hcc0 : (0 : Int) ≤
        ((((importCompanies env (companiesRouteBuild records) dk).1.map
          CompanyImportResult.company_id).dedup).length : Int) := by positivity
    have hccN : (((((importCompanies env (companiesRouteBuild records) dk).1.map
        CompanyImportResult.company_id).dedup).length : Nat) : Int) ≤
        (records.length : Int) := by
      have ha := companyCount_le env (companiesRouteBuild records) dk
      have hb := companiesRouteBuild_length records
      exact_mod_cast le_trans ha hb
    exact companiesThreeStates_spec jid (records.length : Int) _ _ _ _ hcc0 hccN

/-- Witness for C3: a concrete two-record collections run polled after every
mutation, and a companies run whose only row lacks the required fields. -/
theorem C3_processed_monotone_bounded_witness :
    (List.Chain' (fun a b => processedAt a "j1" ≤ processedAt b "j1")
      (collectionsRun "j1"
        [(true, { title := "A", tag := "success", message := "ok" }),
         (false, { title := "B", tag := "error", message := "bad" })]
        (fun _ => false))
     ∧ ∀ m ∈ collectionsRun "j1"
        [(true, { title := "A", tag := "success", message := "ok" }),
         (false, { title := "B", tag := "error", message := "bad" })]
        (fun _ => false),
        0 ≤ processedAt m "j1" ∧ processedAt m "j1" ≤
          ((([(true, { title := "A", tag := "success", message := "ok" }),
              (false, { title := "B", tag := "error", message := "bad" })] :
              List (Bool × ResultEntry)).length : Nat) : Int))
    ∧ (List.Chain' (fun a b => processedAt a "j2" ≤ processedAt b "j2")
        (companiesImportRun [[("foo", "bar")]] c6Env (fun _ => "COMP_0") "j2")
       ∧ ∀ m ∈ companiesImportRun [[("foo", "bar")]] c6Env (fun _ => "COMP_0") "j2",
          0 ≤ processedAt m "j2" ∧ processedAt m "j2" ≤
            ((([[("foo", "bar")]] : List RawRow).length : Nat) : Int)) :=
  ⟨(C3_processed_monotone_bounded.1 "j1"
      [(true, { title := "A", tag := "success", message := "ok" }),
       (false, { title := "B", tag := "error", message := "bad" })] (fun _ => false)),
   (C3_processed_monotone_bounded.2 [[("foo", "bar")]] c6Env (fun _ => "COMP_0") "j2")⟩

/-! ### Theorems for the company sync (C6, C7) -/

theorem companyCreateAttempt_success (env : CompanyEnv) (cd : CompanyData)
    (c : RemoteCompany) (cid : String)
    (hcid : cd.company_id = some cid) (hc : cid ≠ "")
    (hq : env.companiesQuery ("external_id:\"" ++ cid ++ "\"") = .ok [])
    (hcr : env.companyCreate 0 = .ok { userErrors := [], company := some c })
    (hmf : cd.metafields = none) :
    companyCreateAttempt env cd 0 =
      (.done (some c) true,
       [SyncEvent.companiesQuery ("external_id:\"" ++ cid ++ "\""),
        SyncEvent.companyCreate (some cid) cd.location_id
          (jsOr cd.location_name cd.name)]) := by
  unfold companyCreateAttempt
  rw [hcid, hmf]
  simp [truthy, hc, hq, hcr, parseCompanyMetafields]

theorem companyCreateAttempt_fail (env : CompanyEnv) (cd : CompanyData)
    (cid : String) (errF : UserError)
    (hcid : cd.company_id = some cid) (hc : cid ≠ "")
    (hq : env.companiesQuery ("external_id:\"" ++ cid ++ "\"") = .ok [])
    (hcr : ∀ k, env.companyCreate k = .ok { userErrors := [errF], company := none })
    (hne : (jsFieldIncludes errF.field "email" && jsIncludes errF.message "taken") = false) :
    ∀ r, companyCreateAttempt env cd r =
      (.failed ("Shopify API error for " ++ cd.name ++ ": " ++
         String.intercalate ", " ([errF].map UserError.message)),
       [SyncEvent.companiesQuery ("external_id:\"" ++ cid ++ "\""),
        SyncEvent.companyCreate (some cid) cd.location_id
          (jsOr cd.location_name cd.name)]) := by
  intro r
  unfold companyCreateAttempt
  rw [hcid]
  simp [truthy, hc, hq, hcr r, List.find?, hne]

theorem companyCreateAttempt_email_recovery (env : CompanyEnv) (cd : CompanyData)
    (cid : String) (found : RemoteCompany) (err : UserError)
    (hcid : cd.company_id = some cid) (hc : cid ≠ "")
    (hq : env.companiesQuery ("external_id:\"" ++ cid ++ "\"") = .ok [])
    (hcr : env.companyCreate 0 = .ok { userErrors := [err], company := none })
    (hfield : jsFieldIncludes err.field "email" = true)
    (hmsg : jsIncludes err.message "taken" = true)
    (hfind : ∀ email, env.findByEmail email = .ok [found])
    (hext : found.externalId = some cid) :
    companyCreateAttempt env cd 0 =
      (.done (some found) false,
       [SyncEvent.companiesQuery ("external_id:\"" ++ cid ++ "\""),
        SyncEvent.companyCreate (some cid) cd.location_id
          (jsOr cd.location_name cd.name),
        SyncEvent.findByEmail (jsOr cd.contact_email (generatedEmail cd.name env.now 0))]) := by
  unfold companyCreateAttempt
  rw [hcid]
  simp [truthy, hc, hq, hcr, List.find?, hfield, hmsg, hfind, hext]

theorem createShopifyCompanyGo_done (env : CompanyEnv) (cd : CompanyData)
    (maxR r : Nat) (c : Option RemoteCompany) (b : Bool) (evs : List SyncEvent)
    (h : companyCreateAttempt env cd r = (.done c b, evs)) :
    createShopifyCompanyGo env cd maxR r = (.ok (c, b), evs) := by
  rw [createShopifyCompanyGo, h]

theorem createShopifyCompanyGo_fail3 (env : CompanyEnv) (cd : CompanyData)
    (msg : String) (evs : List SyncEvent)
    (h : ∀ r, companyCreateAttempt env cd r = (.failed msg, evs)) :
    createShopifyCompanyGo env cd 3 0 =
      (.error ("Failed to create Shopify customer for " ++ cd.name ++
        " after " ++ toString 3 ++ " attempts. Error: " ++ msg),
       evs ++ (evs ++ evs)) := by
  rw [createShopifyCompanyGo, h 0]
  rw [createShopifyCompanyGo, h 1]
  rw [createShopifyCompanyGo, h 2]
  norm_num

theorem createLocation_event (env : CompanyEnv)
    (hlocs : ∀ s, env.locationsOf s = .ok []) (cidS : String) (l : CompanyData) :
    createShopifyCompanyLocation env cidS l =
      (env.locationCreate l.location_id,
       [SyncEvent.locationCreate cidS l.location_id (jsOr l.location_name l.name)]) := by
  unfold createShopifyCompanyLocation
  by_cases ht : truthy l.location_id
  · simp [ht, hlocs, List.find?]
  · simp [ht]

theorem flatten_map_singleton {α β : Type} (f : α → β) :
    ∀ l : List α, ((l.map (fun x => [f x])).flatten) = l.map f := by
  intro l
  induction l with
  | nil => rfl
  | cons a t ih => simp [ih]

theorem groupFold_enumFrom (cid : String) (hc : cid ≠ "") (dk : Nat → String) :
    ∀ (l : List CompanyData) (n : Nat) (acc : List CompanyData),
      (∀ r ∈ l, r.company_id = some cid) →
      List.foldl
        (fun groups p =>
          groupInsert groups
            (if truthy p.2.company_id then p.2.company_id.getD "" else dk p.1)
            p.2)
        [(cid, acc)] (List.enumFrom n l) = [(cid, acc ++ l)] := by
  intro l
  induction l with
  | nil =>
      intro n acc _
      simp [List.enumFrom]
  | cons c t ih =>
      intro n acc hall
      have hc1 : c.company_id = some cid := hall c (by simp)
      have ht : ∀ r ∈ t, r.company_id = some cid := fun r hr => hall r (by simp [hr])
      show List.foldl _ _ ((n, c) :: List.enumFrom (n + 1) t) = _
      rw [List.foldl_cons]
      have hkey : (if truthy (n, c).2.company_id then (n, c).2.company_id.getD ""
          else dk (n, c).1) = cid := by
        simp [hc1, truthy, hc]
      rw [hkey]
      have hins : groupInsert [(cid, acc)] cid c = [(cid, acc ++ [c])] := by
        simp [groupInsert]
      rw [hins, ih (n + 1) (acc ++ [c]) ht]
      simp

theorem groupByCompanyId_const (cid : String) (hc : cid ≠ "")
    (dk : Nat → String) (main : CompanyData) (tail : List CompanyData)
    (hall : ∀ r ∈ main :: tail, r.company_id = some cid) :
    groupByCompanyId (main :: tail) dk = [(cid, main :: tail)] := by
  have h0 : main.company_id = some cid := hall main (by simp)
  have ht : ∀ r ∈ tail, r.company_id = some cid := fun r hr => hall r (by simp [hr])
  unfold groupByCompanyId
  show List.foldl _ _ (List.enumFrom 0 (main :: tail)) = _
  have : List.enumFrom 0 (main :: tail) = (0, main) :: List.enumFrom 1 tail := rfl
  rw [this, List.foldl_cons]
  have hkey : (if truthy (0, main).2.company_id then (0, main).2.company_id.getD ""
      else dk (0, main).1) = cid := by
    simp [h0, truthy, hc]
  rw [hkey]
  have hins : groupInsert [] cid main = [(cid, [main])] := by
    simp [groupInsert]
  rw [hins, groupFold_enumFrom cid hc dk tail 1 [main] ht]
  simp

theorem importCompanies_single_group (env : CompanyEnv) (cid : String)
    (hc : cid ≠ "") (dk : Nat → String) (main : CompanyData)
    (tail : List CompanyData)
    (hall : ∀ r ∈ main :: tail, r.company_id = some cid) :
    importCompanies env (main :: tail) dk =
      processCompanyGroup env cid (main :: tail) := by
  unfold importCompanies
  rw [groupByCompanyId_const cid hc dk main tail hall]
  simp

/-- C7: when the company create fails with a taken-email user error and the
follow-up lookup by that email finds a company whose externalId equals the
record's external company id, createShopifyCompany relinks to that company on
the same attempt: the outcome is a success with isNew = false (recorded by
the caller as success with created = false), not an error, and no retry
happens. -/
theorem C7_email_conflict_relink (env : CompanyEnv) (cd : CompanyData)
    (cid : String) (found : RemoteCompany) (err : UserError)
    (hcid : cd.company_id = some cid) (hc : cid ≠ "")
    (hq : env.companiesQuery ("external_id:\"" ++ cid ++ "\"") = .ok [])
    (hcr : env.companyCreate 0 = .ok { userErrors := [err], company := none })
    (hfield : jsFieldIncludes err.field "email" = true)
    (hmsg : jsIncludes err.message "taken" = true)
    (hfind : ∀ email, env.findByEmail email = .ok [found])
    (hext : found.externalId = some cid) :
    createShopifyCompany env cd =
      (.ok (some found, false),
       [SyncEvent.companiesQuery ("external_id:\"" ++ cid ++ "\""),
        SyncEvent.companyCreate (some cid) cd.location_id
          (jsOr cd.location_name cd.name),
        SyncEvent.findByEmail (jsOr cd.contact_email (generatedEmail cd.name env.now 0))]) := by
  unfold createShopifyCompany
  exact createShopifyCompanyGo_done env cd importExportMaxRetries 0 _ _ _
    (companyCreateAttempt_email_recovery env cd cid found err hcid hc hq hcr
      hfield hmsg hfind hext)

/-- Witness for C7 at a concrete record and environment. -/
theorem C7_email_conflict_relink_witness :
    (c7Record.company_id = some "EXT1"
     ∧ c7Env.companyCreate 0 = .ok { userErrors := [c7Err], company := none }
     ∧ jsFieldIncludes c7Err.field "email" = true
     ∧ jsIncludes c7Err.message "taken" = true
     ∧ c7Found.externalId = some "EXT1")
    ∧ createShopifyCompany c7Env c7Record =
      (.ok (some c7Found, false),
       [SyncEvent.companiesQuery ("external_id:\"" ++ "EXT1" ++ "\""),
        SyncEvent.companyCreate (some "EXT1") c7Record.location_id
          (jsOr c7Record.location_name c7Record.name),
        SyncEvent.findByEmail (jsOr c7Record.contact_email
          (generatedEmail c7Record.name c7Env.now 0))]) :=
  ⟨⟨rfl, rfl, by decide, by decide, rfl⟩,
   C7_email_conflict_relink c7Env c7Record "EXT1" c7Found c7Err rfl (by decide)
     rfl rfl (by decide) (by decide) (fun _ => rfl) rfl⟩

/-- C6: for a group of records sharing one company external id, the company
is created exactly once, before any location work, by a companyCreate call
that itself carries the first record's location; the remaining locations are
then created serially in record order as dependent calls, and every record is
recorded as a success.  When the company step fails (here: a non-email
validation error on every attempt), every record of the group is recorded as
skipped and no location call is ever made. -/
theorem C6_company_once_locations_dependent (main : CompanyData)
    (tail : List CompanyData) (cid : String) (hc : cid ≠ "")
    (env envF : CompanyEnv) (c : RemoteCompany) (errF : UserError)
    (dk : Nat → String)
    (hcid : ∀ r ∈ main :: tail, r.company_id = some cid)
    (hq : env.companiesQuery ("external_id:\"" ++ cid ++ "\"") = .ok [])
    (hcr : env.companyCreate 0 = .ok { userErrors := [], company := some c })
    (hcne : c.id ≠ "")
    (hnodef : env.ensureDefThrow = none)
    (hmeta : ∀ h, env.metaobjectByHandle h = none)
    (hlocs : ∀ s, env.locationsOf s = .ok [])
    (hms : ∀ h, env.metaSaveThrow h = none)
    (hmf : main.metafields = none)
    (hqF : envF.companiesQuery ("external_id:\"" ++ cid ++ "\"") = .ok [])
    (hcrF : ∀ k, envF.companyCreate k = .ok { userErrors := [errF], company := none })
    (hneF : (jsFieldIncludes errF.field "email" && jsIncludes errF.message "taken") = false)
    (hnodefF : envF.ensureDefThrow = none)
    (hmetaF : ∀ h, envF.metaobjectByHandle h = none) :
    (importCompanies env (main :: tail) dk).2 =
      [SyncEvent.companiesQuery ("external_id:\"" ++ cid ++ "\""),
       SyncEvent.companyCreate (some cid) main.location_id
         (jsOr main.location_name main.name)]
      ++ tail.map (fun l =>
           SyncEvent.locationCreate c.id l.location_id (jsOr l.location_name l.name))
    ∧ (((importCompanies env (main :: tail) dk).2.filter isCompanyCreateEvent).length = 1)
    ∧ (importCompanies env (main :: tail) dk).1 =
        (main :: tail).map (createdResult cid (some c.id))
    ∧ (importCompanies envF (main :: tail) dk).1 =
        (main :: tail).map (skippedResult cid)
    ∧ (importCompanies envF (main :: tail) dk).2.filter isLocationCreateEvent = [] := by
  have hmain : main.company_id = some cid := hcid main (by simp)
  -- the success-side company step
  have hdone := createShopifyCompanyGo_done env main importExportMaxRetries 0 _ _ _
    (companyCreateAttempt_success env main c cid hmain hc hq hcr hmf)
  have hstep : companyStep env cid main =
      ((some c.id, true, true),
       [SyncEvent.companiesQuery ("external_id:\"" ++ cid ++ "\""),
        SyncEvent.companyCreate (some cid) main.location_id
          (jsOr main.location_name main.name)]) := by
    unfold companyStep createShopifyCompanyWithFallback createShopifyCompany
    rw [hdone]
    simp [hmeta, hcne]
  -- the success-side group processing
  have hgroup : processCompanyGroup env cid (main :: tail) =
      ((main :: tail).map (createdResult cid (some c.id)),
       [SyncEvent.companiesQuery ("external_id:\"" ++ cid ++ "\""),
        SyncEvent.companyCreate (some cid) main.location_id
          (jsOr main.location_name main.name)]
       ++ tail.map (fun l =>
            SyncEvent.locationCreate c.id l.location_id (jsOr l.location_name l.name))) := by
    unfold processCompanyGroup
    rw [hnodef]
    dsimp only
    rw [hstep]
    simp [createLocation_event env hlocs, hms, hmeta, createdResult,
      flatten_map_singleton]
  -- the failure-side company step
  have hfail := createShopifyCompanyGo_fail3 envF main _ _
    (companyCreateAttempt_fail envF main cid errF hmain hc hqF hcrF hneF)
  have hstepF : companyStep envF cid main =
      ((none, false, false),
       ([SyncEvent.companiesQuery ("external_id:\"" ++ cid ++ "\""),
         SyncEvent.companyCreate (some cid) main.location_id
           (jsOr main.location_name main.name)]
        ++ ([SyncEvent.companiesQuery ("external_id:\"" ++ cid ++ "\""),
             SyncEvent.companyCreate (some cid) main.location_id
               (jsOr main.location_name main.name)]
            ++ [SyncEvent.companiesQuery ("external_id:\"" ++ cid ++ "\""),
                SyncEvent.companyCreate (some cid) main.location_id
                  (jsOr main.location_name main.name)]))) := by
    unfold companyStep createShopifyCompanyWithFallback createShopifyCompany
    rw [show importExportMaxRetries = 3 from rfl, hfail]
    simp [hmetaF]
  have hgroupF : processCompanyGroup envF cid (main :: tail) =
      ((main :: tail).map (skippedResult cid),
       ([SyncEvent.companiesQuery ("external_id:\"" ++ cid ++ "\""),
         SyncEvent.companyCreate (some cid) main.location_id
           (jsOr main.location_name main.name)]
        ++ ([SyncEvent.companiesQuery ("external_id:\"" ++ cid ++ "\""),
             SyncEvent.companyCreate (some cid) main.location_id
               (jsOr main.location_name main.name)]
            ++ [SyncEvent.companiesQuery ("external_id:\"" ++ cid ++ "\""),
                SyncEvent.companyCreate (some cid) main.location_id
                  (jsOr main.location_name main.name)]))) := by
    unfold processCompanyGroup
    rw [hnodefF]
    dsimp only
    rw [hstepF]
    simp
  have hsingle := importCompanies_single_group env cid hc dk main tail hcid
  have hsingleF := importCompanies_single_group envF cid hc dk main tail hcid
  have hfilterLoc : (tail.map (fun l =>
      SyncEvent.locationCreate c.id l.location_id (jsOr l.location_name l.name))).filter
        isCompanyCreateEvent = [] := by
    rw [List.filter_eq_nil_iff]
    intro a ha
    obtain ⟨l, _, rfl⟩ := List.mem_map.mp ha
    simp [isCompanyCreateEvent]
  refine ⟨?_, ?_, ?_, ?_, ?_⟩
  · rw [hsingle, hgroup]
  · rw [hsingle, hgroup]
    simp [List.filter, isCompanyCreateEvent, hfilterLoc]
  · rw [hsingle, hgroup]
  · rw [hsingleF, hgroupF]
  · rw [hsingleF, hgroupF]
    simp [List.filter, isLocationCreateEvent]

/-- Witness for C6 at a concrete two-record group and concrete success and
failure environments. -/
theorem C6_company_once_locations_dependent_witness :
    (importCompanies c6Env (c6Main :: [c6Second]) (fun _ => "COMP_0")).2 =
      [SyncEvent.companiesQuery ("external_id:\"" ++ "EXT9" ++ "\""),
       SyncEvent.companyCreate (some "EXT9") c6Main.location_id
         (jsOr c6Main.location_name c6Main.name)]
      ++ [c6Second].map (fun l =>
           SyncEvent.locationCreate c6Company.id l.location_id
             (jsOr l.location_name l.name))
    ∧ (((importCompanies c6Env (c6Main :: [c6Second]) (fun _ => "COMP_0")).2.filter
          isCompanyCreateEvent).length = 1)
    ∧ (importCompanies c6Env (c6Main :: [c6Second]) (fun _ => "COMP_0")).1 =
        (c6Main :: [c6Second]).map (createdResult "EXT9" (some c6Company.id))
    ∧ (importCompanies c6EnvFail (c6Main :: [c6Second]) (fun _ => "COMP_0")).1 =
        (c6Main :: [c6Second]).map (skippedResult "EXT9")
    ∧ (importCompanies c6EnvFail (c6Main :: [c6Second]) (fun _ => "COMP_0")).2.filter
        isLocationCreateEvent = [] :=
  C6_company_once_locations_dependent c6Main [c6Second] "EXT9" (by decide)
    c6Env c6EnvFail c6Company c6FailErr (fun _ => "COMP_0")
    (by decide) rfl rfl (by decide) rfl (fun _ => rfl) (fun _ => rfl)
    (fun _ => rfl) rfl rfl (fun _ => rfl) (by decide) rfl (fun _ => rfl)

theorem withRetryRun_nontransient (msgs : Nat → String)
    (h : ∀ k, isTransientMsg (msgs k) = false) (mr : Nat) :
    ∀ n r, mr - r = n → r ≤ mr →
      withRetryRun (fun k => .userError (msgs k)) mr r =
        { calls := mr - r + 1,
          delays := (List.range' (r + 1) (mr - r)).map (fun i => 2000 * i),
          result := some (msgs mr) } := by
  intro n
  induction n with
  | zero =>
      intro r h1 h2
      have hr : r = mr := by omega
      subst hr
      rw [withRetryRun]
      dsimp only
      rw [h r, if_neg (by simp), dif_pos (le_refl r)]
      simp [List.range', Nat.sub_self]
  | succ n ih =>
      intro r h1 h2
      rw [withRetryRun]
      dsimp only
      rw [h r, if_neg (by simp), dif_neg (by omega),
        ih (r + 1) (by omega) (by omega)]
      have hk : mr - r = (mr - (r + 1)) + 1 := by omega
      rw [hk]
      simp [List.range']

theorem withRetryRun_transient (msgs : Nat → String)
    (h : ∀ k, isTransientMsg (msgs k) = true) (mr : Nat) :
    ∀ n r, mr - r = n + 1 →
      withRetryRun (fun k => .userError (msgs k)) mr r =
        { calls := mr - r,
          delays := (List.range' (r + 1) (mr - r - 1)).map (fun i => 2000 * i),
          result := some ("Failed after " ++ toString mr ++ " retries: " ++ msgs (mr - 1)) } := by
  intro n
  induction n with
  | zero =>
      intro r h1
      rw [withRetryRun]
      dsimp only
      rw [h r, if_pos rfl, dif_pos (by omega)]
      have h2 : mr - r = 1 := by omega
      have hmsg : msgs r = msgs (mr - 1) := by
        have : r = mr - 1 := by omega
        rw [this]
      rw [h2, hmsg]
      simp [List.range']
  | succ n ih =>
      intro r h1
      rw [withRetryRun]
      dsimp only
      rw [h r, if_pos rfl, dif_neg (by omega), ih (r + 1) (by omega)]
      have hk : mr - r - 1 = (mr - (r + 1) - 1) + 1 := by omega
      have hc : mr - r = (mr - (r + 1)) + 1 := by omega
      rw [hk, hc]
      simp [List.range']

theorem chain'_lt_map_mul_range' : ∀ (n s : Nat),
    List.Chain' (· < ·) ((List.range' s n).map (fun i => 2000 * i))
  | 0, _ => by simp [List.range']
  | 1, _ => by simp [List.range']
  | (n + 2), s => by
      have ih := chain'_lt_map_mul_range' (n + 1) (s + 1)
      simp only [List.range', List.map_cons] at ih ⊢
      exact List.chain'_cons.mpr ⟨by omega, ih⟩

/-- C4 counterexample: a non-transient validation failure handed to the
retry helper with the configured maxRetries of 3 produces four operation
calls with backoff sleeps 2s, 4s, 6s before the error surfaces: it is not
surfaced immediately without retry as claimed. -/
theorem C4_counterexample :
    isTransientMsg "Title cannot be blank" = false
    ∧ withRetry c4NonTransientAttempt importExportMaxRetries =
        { calls := 4, delays := [2000, 4000, 6000],
          result := some "Title cannot be blank" }
    ∧ (withRetry c4NonTransientAttempt importExportMaxRetries).calls ≠ 1 := by
  have hrun := withRetryRun_nontransient (fun _ : Nat => "Title cannot be blank")
    (by
      intro k
      show isTransientMsg "Title cannot be blank" = false
      decide) 3 3 0 rfl (by omega)
  have h2 : withRetry c4NonTransientAttempt importExportMaxRetries =
      withRetryRun
        (fun k => AttemptOutcome.userError ((fun _ : Nat => "Title cannot be blank") k))
        3 0 := rfl
  refine ⟨by decide, ?_, ?_⟩
  · rw [h2, hrun]
    simp [List.range']
  · rw [h2, hrun]
    simp

/-- C4 (amended): the shared retry helper retries every failing call, not
only the transient class: a non-transient failure (a remote validation error
included) is thrown inside the try block, lands in the same catch, and is
retried with linearly increasing delays 2000ms, 4000ms, ... up to the attempt
cap (maxRetries + 1 operation calls in all), while an always-transient
failure stops after maxRetries calls with a wrapped message; the error
surfaces only after exhaustion, as a record-level error of the caller. -/
theorem C4_retry_policy (msgsN msgsT : Nat → String) (mr : Nat) (hmr : 1 ≤ mr)
    (hN : ∀ k, isTransientMsg (msgsN k) = false)
    (hT : ∀ k, isTransientMsg (msgsT k) = true) :
    withRetry (fun k => .userError (msgsN k)) mr =
      { calls := mr + 1,
        delays := (List.range' 1 mr).map (fun i => 2000 * i),
        result := some (msgsN mr) }
    ∧ withRetry (fun k => .userError (msgsT k)) mr =
      { calls := mr,
        delays := (List.range' 1 (mr - 1)).map (fun i => 2000 * i),
        result := some ("Failed after " ++ toString mr ++ " retries: " ++ msgsT (mr - 1)) }
    ∧ List.Chain' (· < ·) ((List.range' 1 mr).map (fun i => 2000 * i)) := by
  refine ⟨?_, ?_, chain'_lt_map_mul_range' mr 1⟩
  · rw [withRetry, withRetryRun_nontransient msgsN hN mr mr 0 rfl (Nat.zero_le _)]
    simp
  · rw [withRetry, withRetryRun_transient msgsT hT mr (mr - 1) 0 (by omega)]
    simp

/-- Witness for C4 (amended) at maxRetries 3 with concrete messages. -/
theorem C4_retry_policy_witness :
    withRetry (fun _ => .userError "invalid title") 3 =
      { calls := 4, delays := (List.range' 1 3).map (fun i => 2000 * i),
        result := some "invalid title" }
    ∧ withRetry (fun _ => .userError "Throttled by API") 3 =
      { calls := 3, delays := (List.range' 1 2).map (fun i => 2000 * i),
        result := some ("Failed after " ++ toString 3 ++ " retries: " ++ "Throttled by API") }
    ∧ List.Chain' (· < ·) ((List.range' 1 3).map (fun i => 2000 * i)) :=
  C4_retry_policy (fun _ => "invalid title") (fun _ => "Throttled by API") 3
    (by decide)
    (by
      intro k
      show isTransientMsg "invalid title" = false
      decide)
    (by
      intro k
      show isTransientMsg "Throttled by API" = true
      decide)

/-! ### Theorems for metaobject field decoding (C9) -/

/-- C9 counterexample: a field declared number_integer whose value does not
parse is decoded to NaN, not to its raw string value, so the claimed raw
string fallback does not cover the integer (or decimal) number types. -/
theorem C9_counterexample :
    parseMetaobjectField jsonParseNone c9IntField = FieldVal.nan
    ∧ parseMetaobjectField jsonParseNone c9IntField ≠ FieldVal.str "abc" := by
  refine ⟨by decide, by decide⟩

/-- C9 (amended): each field is decoded by its declared type tag; the raw
string fallback covers a JSON parse failure and every unknown type tag, and
booleans never fail, but a failed integer or decimal decode yields NaN
(parseInt and parseFloat do not throw, so the catch never sees them). -/
theorem C9_field_decoding (J : Type) (jsonParse : String → Option J)
    (f : MetaField) :
    ((f.type = "json" ∨ f.type = "list.single_line_text_field") →
      jsonParse f.value = none →
      parseMetaobjectField jsonParse f = .str f.value)
    ∧ (f.type = "boolean" →
      parseMetaobjectField jsonParse f = .bool (f.value = "true"))
    ∧ (f.type = "number_integer" → jsParseInt f.value = none →
      parseMetaobjectField jsonParse f = .nan)
    ∧ (f.type = "number_decimal" → jsParseFloat f.value = none →
      parseMetaobjectField jsonParse f = .nan)
    ∧ (f.type ∉ (["json", "list.single_line_text_field", "boolean",
        "number_integer", "number_decimal"] : List String) →
      parseMetaobjectField jsonParse f = .str f.value) := by
  refine ⟨?_, ?_, ?_, ?_, ?_⟩
  · intro h1 h2
    unfold parseMetaobjectField
    rw [if_pos h1, h2]
  · intro h1
    unfold parseMetaobjectField
    rw [if_neg (by rw [h1]; decide), if_pos h1]
  · intro h1 h2
    unfold parseMetaobjectField
    rw [if_neg (by rw [h1]; decide), if_neg (by rw [h1]; decide), if_pos h1, h2]
  · intro h1 h2
    unfold parseMetaobjectField
    rw [if_neg (by rw [h1]; decide), if_neg (by rw [h1]; decide),
      if_neg (by rw [h1]; decide), if_pos h1, h2]
  · intro h1
    simp only [List.mem_cons, List.not_mem_nil, or_false, not_or] at h1
    obtain ⟨n1, n2, n3, n4, n5⟩ := h1
    unfold parseMetaobjectField
    rw [if_neg (by simp [n1, n2]), if_neg n3, if_neg n4, if_neg n5]

/-- Witness for C9 (amended) on concrete fields of each class. -/
theorem C9_field_decoding_witness :
    ((jsonParseNone "not json" = none)
     ∧ parseMetaobjectField jsonParseNone
         { key := "contact_info", value := "not json", type := "json" }
         = FieldVal.str "not json")
    ∧ (jsParseFloat "x1" = none
       ∧ parseMetaobjectField jsonParseNone
           { key := "value", value := "x1", type := "number_decimal" }
           = FieldVal.nan)
    ∧ parseMetaobjectField jsonParseNone
        { key := "company_id", value := "C7", type := "single_line_text_field" }
        = FieldVal.str "C7" :=
  ⟨⟨by decide,
    (C9_field_decoding Unit jsonParseNone
      { key := "contact_info", value := "not json", type := "json" }).1
      (Or.inl rfl) rfl⟩,
   ⟨by decide,
    (C9_field_decoding Unit jsonParseNone
      { key := "value", value := "x1", type := "number_decimal" }).2.2.2.1
      rfl (by decide)⟩,
   (C9_field_decoding Unit jsonParseNone
      { key := "company_id", value := "C7", type := "single_line_text_field" }).2.2.2.2
      (by decide)⟩

end ImportExportGwl
